import Mathlib

/-!
Verification of the pokememo turn-based matching-card game engine.

This file shallowly embeds the game controller found in
`src/lib/game-controller.ts` (together with the difficulty table of
`src/lib/type.ts` and the asset-selection logic of
`src/services/pokemon.service.ts`) and proves properties of the embedding.

Modelling conventions:
* JavaScript object references stored in `revealedCards` and captured by the
  delayed comparison callback are represented by indices into the `cards`
  array (the array is never reordered after construction, only updated in place),
  so index-based updates coincide with reference mutation.
* The delayed comparison callbacks (`setTimeout` in `compareCards`) are kept
  in a `pending` list on the controller; firing a callback removes it.
* The `setInterval` timer handle is modelled by the boolean `timerOn`; a
  `tick` step models one firing of the interval callback.
* Methods that `throw` are given `Except String` result types; methods that
  can never throw still use `Except` so that the absence of failure is
  expressible.
-/

namespace Pokememo

/-- Difficulty levels (`enum Difficulty` in `type.ts`). -/
inductive Difficulty
  | easy
  | medium
  | hard
deriving Repr, DecidableEq

/-- Grid dimensions for each difficulty (`GridDimensions` in `type.ts`). -/
structure GridDimensions where
  rows : Nat
  cols : Nat
  totalCards : Nat
  uniquePokemon : Nat
deriving Repr, DecidableEq

/-- The static difficulty table (`DIFFICULTY_CONFIG` in `type.ts`). -/
def DIFFICULTY_CONFIG : Difficulty → GridDimensions
  | .easy => ⟨2, 4, 8, 4⟩
  | .medium => ⟨4, 4, 16, 8⟩
  | .hard => ⟨4, 6, 24, 12⟩

/-- Pokemon data as returned by the asset provider (`Pokemon` in `type.ts`). -/
structure Pokemon where
  id : Nat
  name : String
  spriteUrl : String
deriving Repr, DecidableEq

/-- A card of the deck (`Card` in `type.ts`). -/
structure Card where
  id : Nat
  pokemonId : Nat
  image : String
  isFlipped : Bool
  isMatched : Bool
deriving Repr, DecidableEq

/-- A player (`Player` in `type.ts`); the optional counters are modelled as
plain naturals, `undefined` being `0` exactly as the `|| 0` guards read.
`matchCount` embeds the source field named after the matches made (that word
is reserved in Lean). -/
structure Player where
  id : String
  name : String
  score : Nat
  isActive : Bool
  totalFlips : Nat
  matchCount : Nat
deriving Repr, DecidableEq

/-- A theme (`PokemonTheme` in `type.ts`). -/
structure PokemonTheme where
  generation : Nat
deriving Repr, DecidableEq

/-- Game configuration (`GameConfig` in `type.ts`). -/
structure GameConfig where
  difficulty : Difficulty
  players : List Player
  theme : PokemonTheme
deriving Repr, DecidableEq

/-- Complete game state (`GameState` in `type.ts`).  `revealedCards` holds
indices into `cards` (the source stores object references). -/
structure GameState where
  config : GameConfig
  cards : List Card
  players : List Player
  currentPlayerIndex : Nat
  revealedCards : List Nat
  timeRemaining : Int
  isPaused : Bool
  isGameOver : Bool
  winner : Option Player
deriving Repr, DecidableEq

/-- Result of a card flip action (`enum TurnResult` in `type.ts`). -/
inductive TurnResult
  | FIRST_CARD
  | MATCH
  | MISMATCH
  | INVALID
  | GAME_OVER
deriving Repr, DecidableEq

/-- The controller's private fields: `state`, the `setInterval` handle
(`timerOn`), and the scheduled comparison callbacks (`pending`, holding the
card indices captured by each `setTimeout` closure). -/
structure Controller where
  state : Option GameState
  timerOn : Bool
  pending : List (Nat × Nat)
deriving Repr, DecidableEq

/-- `private readonly TIMER_DURATION = 30`. -/
def TIMER_DURATION : Int := 30

/-- A freshly constructed controller (`new GameController()`). -/
def freshController : Controller := ⟨none, false, []⟩

-- =========================================================================
-- List helpers used by the embedding
-- =========================================================================

/-- Apply `f` to the element at position `i`, leaving the rest unchanged
(in-place mutation of `players[i]` in the source). -/
def modifyAt (f : Player → Player) : Nat → List Player → List Player
  | _, [] => []
  | 0, p :: ps => f p :: ps
  | n + 1, p :: ps => p :: modifyAt f n ps

/-- Map with the element's index, starting from `start`
(`Array.prototype.map((x, i) => ...)` / `forEach` with index). -/
def mapIdxFrom (f : Nat → Player → Player) : Nat → List Player → List Player
  | _, [] => []
  | i, p :: ps => f i p :: mapIdxFrom f (i + 1) ps

/-- Swap the elements at positions `i` and `j`
(`[a[i], a[j]] = [a[j], a[i]]`); out-of-range indices leave the list
unchanged (they never occur in the source). -/
def listSwap {α : Type} (l : List α) (i j : Nat) : List α :=
  match l[i]?, l[j]? with
  | some a, some b => (l.set i b).set j a
  | _, _ => l

/-- The Fisher-Yates loop: for the running index `i` from its initial value
down to `1`, swap position `i` with the next random choice
(`for (let i = length - 1; i > 0; i--)`). -/
def fyLoop {α : Type} : List Nat → Nat → List α → List α
  | _, 0, l => l
  | chs, i + 1, l => fyLoop chs.tail i (listSwap l (i + 1) (chs.headD 0))

/-- `shuffleArray` of `game-controller.ts` / `pokemon.service.ts`,
parametrised by the sequence of random index choices. -/
def shuffleArray {α : Type} (chs : List Nat) (l : List α) : List α :=
  fyLoop chs (l.length - 1) l

/-- The card-pair construction loop of `generateCards`: two cards per
Pokemon, each with the next sequential identifier. -/
def buildPairs : Nat → List Pokemon → List Card
  | _, [] => []
  | cid, poke :: rest =>
    ⟨cid, poke.id, poke.spriteUrl, false, false⟩ ::
    ⟨cid + 1, poke.id, poke.spriteUrl, false, false⟩ ::
    buildPairs (cid + 2) rest

-- =========================================================================
-- Scoring
-- =========================================================================

/-- `calculatePlayerScore`: `Math.round((matches / totalFlips) * 1000)` with
the `totalFlips === 0` guard.  Exact round-half-up arithmetic:
`round(1000 m / f) = (2000 m + f) / (2 f)` in natural division. -/
def calculatePlayerScore (matchCount totalFlips : Nat) : Nat :=
  if totalFlips = 0 then 0 else (2000 * matchCount + totalFlips) / (2 * totalFlips)

/-- `incrementPlayerMatches`: bump the current player's match counter and
recompute that player's score. -/
def incrementPlayerMatches (s : GameState) : GameState :=
  { s with players :=
      (modifyAt
        (fun p =>
          { p with matchCount := p.matchCount + 1,
                   score := calculatePlayerScore (p.matchCount + 1) p.totalFlips })
        s.currentPlayerIndex s.players) }

/-- `recalculateAllScores`: recompute every player's score from the two
counters. -/
def recalculateAllScores (s : GameState) : GameState :=
  { s with players := s.players.map (fun p =>
      { p with score := calculatePlayerScore p.matchCount p.totalFlips }) }

-- =========================================================================
-- Deck construction (initGame path)
-- =========================================================================

/-- `pokemonService.getRandomPokemon`: shuffle the generation's list and
return the first `min count length` entries (`slice(0, Math.min(...))`);
a shortage is NOT an error. -/
def getRandomPokemon (allPokemon : List Pokemon) (chs : List Nat) (count : Nat) :
    List Pokemon :=
  let shuffled := shuffleArray chs allPokemon
  shuffled.take (min count shuffled.length)

/-- `generateCards`: look up the difficulty, obtain the Pokemon (the result
of `getPokemonByGeneration` is the `fetched` argument, which is an error when
the fetch failed), build the pairs with sequential identifiers, shuffle. -/
def generateCards (difficulty : Difficulty) (fetched : Except String (List Pokemon))
    (chsPoke chsCards : List Nat) : Except String (List Card) :=
  match fetched with
  | .error e => .error e
  | .ok allPokemon =>
    let cfg := DIFFICULTY_CONFIG difficulty
    let pokemon := getRandomPokemon allPokemon chsPoke cfg.uniquePokemon
    .ok (shuffleArray chsCards (buildPairs 0 pokemon))

/-- `initGame`: validate the player count, build the deck, and only then
install the fresh state.  The timer handle and any pending comparison
callbacks of the controller are untouched (the source clears neither). -/
def initGame (c : Controller) (config : GameConfig)
    (fetched : Except String (List Pokemon)) (chsPoke chsCards : List Nat) :
    Except String Controller :=
  if config.players.length < 1 ∨ config.players.length > 4 then
    .error "Game requires 1-4 players"
  else
    match generateCards config.difficulty fetched chsPoke chsCards with
    | .error e => .error e
    | .ok cards =>
      .ok { c with state := some {
        config := config
        cards := cards
        players := mapIdxFrom (fun i p =>
          { p with score := 0, totalFlips := 0, matchCount := 0,
                   isActive := i == 0 }) 0 config.players
        currentPlayerIndex := 0
        revealedCards := []
        timeRemaining := TIMER_DURATION
        isPaused := true
        isGameOver := false
        winner := none } }

-- =========================================================================
-- Lifecycle operations
-- =========================================================================

/-- `startGame`: throws before init and after game over; otherwise clears
`isPaused` and starts the interval timer. -/
def startGame (c : Controller) : Except String Controller :=
  match c.state with
  | none => .error "Game not initialized. Call initGame() first."
  | some s =>
    if s.isGameOver then .error "Game is already over"
    else .ok { c with state := some { s with isPaused := false }, timerOn := true }

/-- `pauseGame`: silently returns before init and after game over; otherwise
sets `isPaused` and stops the interval timer.  The body never throws. -/
def pauseGame (c : Controller) : Except String Controller :=
  match c.state with
  | none => .ok c
  | some s =>
    if s.isGameOver then .ok c
    else .ok { c with state := some { s with isPaused := true }, timerOn := false }

/-- `resumeGame`: silently returns before init and after game over; otherwise
clears `isPaused` and starts the interval timer.  The body never throws. -/
def resumeGame (c : Controller) : Except String Controller :=
  match c.state with
  | none => .ok c
  | some s =>
    if s.isGameOver then .ok c
    else .ok { c with state := some { s with isPaused := false }, timerOn := true }

-- =========================================================================
-- Flip / comparison / turn logic
-- =========================================================================

/-- `switchPlayer`: advance the current player index modulo the player count,
refresh every `isActive` flag, reset the timer and auto-pause. -/
def switchPlayer (s : GameState) : GameState :=
  let newIdx := (s.currentPlayerIndex + 1) % s.players.length
  { s with
    currentPlayerIndex := newIdx
    players := mapIdxFrom (fun i p => { p with isActive := i == newIdx }) 0 s.players
    timeRemaining := TIMER_DURATION
    isPaused := true }

/-- `switchPlayer` also calls `stopTimer` on the controller. -/
def switchPlayerC (c : Controller) (s : GameState) : Controller :=
  { c with state := some (switchPlayer s), timerOn := false }

/-- `checkWinCondition`: every card matched. -/
def checkWinCondition (s : GameState) : Bool :=
  s.cards.all (·.isMatched)

/-- `endGame`: stop the timer, mark the game over and paused, recompute all
scores, sort descending by score, compute the winner set (singleton means a
winner, anything else means `winner = null`), and return the `gameOver`
event payload (winners, finalScores). -/
def endGame (c : Controller) (s : GameState) :
    Controller × List Player × List Player :=
  let s1 := { s with isGameOver := true, isPaused := true }
  let s2 := recalculateAllScores s1
  let finalScores := s2.players.mergeSort (fun a b => b.score ≤ a.score)
  match finalScores with
  | [] => ({ c with state := some s2, timerOn := false }, [], [])
  | top :: _ =>
    let winners := finalScores.filter (fun p => p.score == top.score)
    let w := if winners.length = 1 then winners.head? else none
    ({ c with state := some { s2 with winner := w }, timerOn := false },
     winners, finalScores)

/-- `pauseTimer`: the body is empty (the comment in the source says the
interval callback simply skips decrementing while paused). -/
def pauseTimer (c : Controller) : Controller := c

/-- `resumeTimer`: the body is empty. -/
def resumeTimer (c : Controller) : Controller := c

/-- The body of the delayed comparison callback scheduled by `compareCards`,
acting on the two captured card references (here: indices `fi`, `si`).  The
callback only bails out when the state is gone. -/
def compareFirePair (c : Controller) (fi si : Nat) : Controller :=
  match c.state with
  | none => c
  | some s =>
    match s.cards[fi]?, s.cards[si]? with
    | some first, some second =>
      if first.pokemonId = second.pokemonId then
        let cards1 :=
          (s.cards.set fi { first with isMatched := true }).set si
            { second with isMatched := true }
        let s1 := { s with cards := cards1 }
        let s2 := incrementPlayerMatches s1
        let s3 := { s2 with timeRemaining := TIMER_DURATION }
        let c1 := resumeTimer { c with state := some s3 }
        if checkWinCondition s3 then (endGame c1 s3).1 else c1
      else
        let cards1 :=
          (s.cards.set fi { first with isFlipped := false }).set si
            { second with isFlipped := false }
        switchPlayerC c { s with cards := cards1 }
    | _, _ => c

/-- Fire the `k`-th pending comparison callback: remove it from the schedule
and run its body. -/
def compareFire (c : Controller) (k : Nat) : Controller :=
  match c.pending[k]? with
  | none => c
  | some (fi, si) =>
    compareFirePair { c with pending := c.pending.eraseIdx k } fi si

/-- `flipCard`: the main game action.  Throws before init; returns `INVALID`
(leaving the controller untouched) when paused, when the card is unknown,
already matched, already flipped, or when two cards are already revealed;
returns `GAME_OVER` when the game is over (and not paused).  Otherwise flips
the card, records it, counts the flip, and -- on the second card -- clears
the revealed set, calls the no-op `pauseTimer` and schedules the comparison
callback. -/
def flipCard (c : Controller) (cardId : Nat) :
    Except String (TurnResult × Controller) :=
  match c.state with
  | none => .error "Game not initialized"
  | some s =>
    if s.isPaused then .ok (.INVALID, c)
    else if s.isGameOver then .ok (.GAME_OVER, c)
    else
      match s.cards.findIdx? (fun cd => cd.id == cardId) with
      | none => .ok (.INVALID, c)
      | some i =>
        match s.cards[i]? with
        | none => .ok (.INVALID, c)
        | some card =>
          if card.isMatched ∨ card.isFlipped then .ok (.INVALID, c)
          else if 2 ≤ s.revealedCards.length then .ok (.INVALID, c)
          else
            let cards1 := s.cards.set i { card with isFlipped := true }
            let revealed1 := s.revealedCards ++ [i]
            let players1 := modifyAt (fun p => { p with totalFlips := p.totalFlips + 1 })
              s.currentPlayerIndex s.players
            let s1 : GameState :=
              { s with cards := cards1, revealedCards := revealed1, players := players1 }
            if revealed1.length = 1 then
              .ok (.FIRST_CARD, { c with state := some s1 })
            else
              match revealed1 with
              | [f, sd] =>
                .ok (.FIRST_CARD, pauseTimer
                  { c with state := some { s1 with revealedCards := [] },
                           pending := c.pending ++ [(f, sd)] })
              | _ => .ok (.FIRST_CARD, { c with state := some s1 })

-- =========================================================================
-- Timer
-- =========================================================================

/-- One iteration of the unflip loop of `onTimerExpired`: flip the card back
if it is not matched. -/
def unflipStep (cs : List Card) (i : Nat) : List Card :=
  match cs[i]? with
  | some card => if card.isMatched then cs else cs.set i { card with isFlipped := false }
  | none => cs

/-- The unflip loop of `onTimerExpired`: flip back every revealed card that
is not matched. -/
def unflipRevealed (revealed : List Nat) (cards : List Card) : List Card :=
  revealed.foldl unflipStep cards

/-- `onTimerExpired`: flip back revealed unmatched cards, clear the revealed
set, and switch to the next player. -/
def onTimerExpired (c : Controller) (s : GameState) : Controller :=
  switchPlayerC c
    { s with cards := unflipRevealed s.revealedCards s.cards, revealedCards := [] }

/-- One firing of the `setInterval` callback installed by `startTimer`: when
the interval is live and the game is not paused, decrement `timeRemaining`
and handle expiry at zero. -/
def tick (c : Controller) : Controller :=
  if c.timerOn = false then c
  else
    match c.state with
    | none => c
    | some s =>
      if s.isPaused then c
      else
        let s1 := { s with timeRemaining := s.timeRemaining - 1 }
        if s1.timeRemaining ≤ 0 then onTimerExpired c s1
        else { c with state := some s1 }

-- =========================================================================
-- Generic list lemmas
-- =========================================================================

theorem count_set {α : Type} [DecidableEq α] (b x : α) :
    ∀ (l : List α) (i : Nat), i < l.length →
      (l.set i b).count x + (if l[i]? = some x then 1 else 0)
        = l.count x + (if b = x then 1 else 0) := by
  intro l
  induction l with
  | nil => intro i h; simp at h
  | cons a t ih =>
    intro i h
    cases i with
    | zero => simp [List.count_cons]; split_ifs <;> simp_all
    | succ n =>
      have hb : n < t.length := by simpa using h
      have := ih n hb
      simp only [List.set_cons_succ, List.count_cons, List.getElem?_cons_succ]
      split_ifs at this ⊢ <;> simp_all

theorem count_listSwap {α : Type} [DecidableEq α] (l : List α) (i j : Nat) (x : α) :
    (listSwap l i j).count x = l.count x := by
  unfold listSwap
  rcases hi : l[i]? with _ | a <;> rcases hj : l[j]? with _ | b <;> simp
  obtain ⟨hilt, hival⟩ := List.getElem?_eq_some.mp hi
  obtain ⟨hjlt, hjval⟩ := List.getElem?_eq_some.mp hj
  have hjlt' : j < (l.set i b).length := by simpa using hjlt
  have h1 := count_set a x (l.set i b) j hjlt'
  have h2 := count_set b x l i hilt
  have hsetj : (l.set i b)[j]? = some b := by
    by_cases hij : i = j
    · subst hij; simp [List.getElem?_set, hilt]
    · simp [List.getElem?_set, hij, hj]
  rw [hsetj] at h1
  rw [hi] at h2
  simp only [Option.some.injEq] at h1 h2
  split_ifs at h1 h2 <;> omega

theorem count_fyLoop {α : Type} [DecidableEq α] (x : α) :
    ∀ (i : Nat) (chs : List Nat) (l : List α), (fyLoop chs i l).count x = l.count x := by
  intro i
  induction i with
  | zero => intro chs l; rfl
  | succ n ih => intro chs l; rw [fyLoop, ih, count_listSwap]

theorem shuffleArray_perm {α : Type} [DecidableEq α] (chs : List Nat) (l : List α) :
    List.Perm (shuffleArray chs l) l :=
  List.perm_iff_count.mpr (fun x => count_fyLoop x (l.length - 1) chs l)

theorem shuffleArray_length {α : Type} [DecidableEq α] (chs : List Nat) (l : List α) :
    (shuffleArray chs l).length = l.length :=
  (shuffleArray_perm chs l).length_eq

-- =========================================================================
-- Lemmas about the player-list helpers
-- =========================================================================

theorem modifyAt_length (f : Player → Player) :
    ∀ (n : Nat) (l : List Player), (modifyAt f n l).length = l.length := by
  intro n l
  induction l generalizing n with
  | nil => cases n <;> rfl
  | cons p ps ih => cases n with
    | zero => rfl
    | succ m => simpa [modifyAt] using ih m

theorem getElem?_modifyAt (f : Player → Player) :
    ∀ (n : Nat) (l : List Player) (j : Nat),
      (modifyAt f n l)[j]? = if j = n then (l[j]?).map f else l[j]? := by
  intro n l
  induction l generalizing n with
  | nil => intro j; cases n <;> simp [modifyAt]
  | cons p ps ih =>
    intro j
    cases n with
    | zero => cases j <;> simp [modifyAt]
    | succ m =>
      cases j with
      | zero => simp [modifyAt]
      | succ k => simpa [modifyAt] using ih m k

theorem mapIdxFrom_length (f : Nat → Player → Player) :
    ∀ (start : Nat) (l : List Player), (mapIdxFrom f start l).length = l.length := by
  intro start l
  induction l generalizing start with
  | nil => rfl
  | cons p ps ih => simpa [mapIdxFrom] using ih (start + 1)

theorem getElem?_mapIdxFrom (f : Nat → Player → Player) :
    ∀ (start : Nat) (l : List Player) (j : Nat),
      (mapIdxFrom f start l)[j]? = (l[j]?).map (f (start + j)) := by
  intro start l
  induction l generalizing start with
  | nil => intro j; simp [mapIdxFrom]
  | cons p ps ih =>
    intro j
    cases j with
    | zero => simp [mapIdxFrom]
    | succ k =>
      have := ih (start + 1) k
      simp only [mapIdxFrom, List.getElem?_cons_succ, this]
      have harith : start + 1 + k = start + (k + 1) := by omega
      rw [harith]

-- =========================================================================
-- Lemmas about unflipRevealed
-- =========================================================================

theorem unflipRevealed_cons (i : Nat) (rest : List Nat) (cards : List Card) :
    unflipRevealed (i :: rest) cards = unflipRevealed rest (unflipStep cards i) := rfl

theorem unflipStep_length (cs : List Card) (i : Nat) :
    (unflipStep cs i).length = cs.length := by
  unfold unflipStep
  rcases h : cs[i]? with _ | card
  · rfl
  · by_cases hm : card.isMatched <;> simp [hm]

theorem getElem?_unflipStep_ne (cs : List Card) (i j : Nat) (hij : i ≠ j) :
    (unflipStep cs i)[j]? = cs[j]? := by
  unfold unflipStep
  rcases h : cs[i]? with _ | card
  · rfl
  · by_cases hm : card.isMatched <;> simp [hm, List.getElem?_set, hij]

theorem getElem?_unflipStep (cs : List Card) (i j : Nat) :
    (unflipStep cs i)[j]? = cs[j]? ∨
    ∃ card, cs[j]? = some card ∧ card.isMatched = false ∧
      (unflipStep cs i)[j]? = some { card with isFlipped := false } := by
  by_cases hij : i = j
  · subst hij
    rcases h : cs[i]? with _ | card
    · left
      unfold unflipStep
      rw [h]
      exact h
    · by_cases hm : card.isMatched
      · left
        unfold unflipStep
        rw [h]
        simpa [hm] using h
      · right
        have hlt : i < cs.length := (List.getElem?_eq_some.mp h).1
        refine ⟨card, rfl, by simp [hm], ?_⟩
        unfold unflipStep
        rw [h]
        simp [hm, List.getElem?_set, hlt]
  · left; exact getElem?_unflipStep_ne cs i j hij

theorem unflipRevealed_length :
    ∀ (revealed : List Nat) (cards : List Card),
      (unflipRevealed revealed cards).length = cards.length := by
  intro revealed
  induction revealed with
  | nil => intro cards; rfl
  | cons i rest ih =>
    intro cards
    rw [unflipRevealed_cons, ih, unflipStep_length]

theorem getElem?_unflipRevealed_notMem :
    ∀ (revealed : List Nat) (cards : List Card) (j : Nat), j ∉ revealed →
      (unflipRevealed revealed cards)[j]? = cards[j]? := by
  intro revealed
  induction revealed with
  | nil => intro cards j _; rfl
  | cons i rest ih =>
    intro cards j hj
    have hji : i ≠ j := fun h => hj (h ▸ List.mem_cons_self i rest)
    have hjrest : j ∉ rest := fun h => hj (List.mem_cons_of_mem i h)
    rw [unflipRevealed_cons, ih _ j hjrest, getElem?_unflipStep_ne _ _ _ hji]

theorem getElem?_unflipRevealed :
    ∀ (revealed : List Nat) (cards : List Card) (j : Nat),
      (unflipRevealed revealed cards)[j]? = cards[j]? ∨
      ∃ card, cards[j]? = some card ∧ card.isMatched = false ∧
        (unflipRevealed revealed cards)[j]? = some { card with isFlipped := false } := by
  intro revealed
  induction revealed with
  | nil => intro cards j; left; rfl
  | cons i rest ih =>
    intro cards j
    rw [unflipRevealed_cons]
    rcases getElem?_unflipStep cards i j with hstep | ⟨card, hcard, hm, hstep⟩
    · rcases ih (unflipStep cards i) j with h1 | ⟨c2, hc2, hm2, hval⟩
      · left; rw [h1, hstep]
      · right; rw [hstep] at hc2; exact ⟨c2, hc2, hm2, hval⟩
    · rcases ih (unflipStep cards i) j with h1 | ⟨c2, hc2, hm2, hval⟩
      · right; exact ⟨card, hcard, hm, by rw [h1, hstep]⟩
      · right
        rw [hstep] at hc2
        have hc2' : c2 = { card with isFlipped := false } := (Option.some.inj hc2).symm
        subst hc2'
        exact ⟨card, hcard, hm, hval⟩

-- =========================================================================
-- Lemmas about buildPairs
-- =========================================================================

theorem buildPairs_length :
    ∀ (cid : Nat) (pokes : List Pokemon), (buildPairs cid pokes).length = 2 * pokes.length := by
  intro cid pokes
  induction pokes generalizing cid with
  | nil => rfl
  | cons poke rest ih => simp [buildPairs, ih (cid + 2)]; omega

theorem buildPairs_map_id :
    ∀ (cid : Nat) (pokes : List Pokemon),
      (buildPairs cid pokes).map Card.id = List.range' cid (2 * pokes.length) := by
  intro cid pokes
  induction pokes generalizing cid with
  | nil => rfl
  | cons poke rest ih =>
    have h2 : 2 * (poke :: rest).length = 2 * rest.length + 1 + 1 := by simp; omega
    rw [h2, List.range'_succ, List.range'_succ]
    simp only [buildPairs, List.map_cons, ih (cid + 2)]

theorem buildPairs_countP (pid : Nat) :
    ∀ (cid : Nat) (pokes : List Pokemon),
      (buildPairs cid pokes).countP (fun cd => cd.pokemonId == pid)
        = 2 * (pokes.map Pokemon.id).count pid := by
  intro cid pokes
  induction pokes generalizing cid with
  | nil => rfl
  | cons poke rest ih =>
    simp only [buildPairs, List.countP_cons, List.map_cons, List.count_cons, ih (cid + 2)]
    by_cases h : poke.id = pid
    · simp [h]; omega
    · simp [h]

theorem buildPairs_flags :
    ∀ (cid : Nat) (pokes : List Pokemon) (card : Card), card ∈ buildPairs cid pokes →
      card.isFlipped = false ∧ card.isMatched = false := by
  intro cid pokes
  induction pokes generalizing cid with
  | nil => intro card h; simp [buildPairs] at h
  | cons poke rest ih =>
    intro card h
    simp only [buildPairs, List.mem_cons] at h
    rcases h with h | h | h
    · subst h; exact ⟨rfl, rfl⟩
    · subst h; exact ⟨rfl, rfl⟩
    · exact ih (cid + 2) card h

-- =========================================================================
-- C8: scoring function
-- =========================================================================

/-- C8: the scoring function is `0` when `totalFlips = 0` and the exact
round-half-up of `1000 * matchCount / totalFlips` otherwise, is monotone in
the match counter for fixed nonzero flips, and recomputing all scores from
the two counters is idempotent. -/
theorem claim_C8_scoring :
    (∀ m, calculatePlayerScore m 0 = 0) ∧
    (∀ m f, f ≠ 0 →
      ((calculatePlayerScore m f : Nat) : ℤ) = round ((m : ℚ) / (f : ℚ) * 1000)) ∧
    (∀ m m' f, f ≠ 0 → m ≤ m' →
      calculatePlayerScore m f ≤ calculatePlayerScore m' f) ∧
    (∀ s : GameState, recalculateAllScores (recalculateAllScores s) = recalculateAllScores s) := by
  refine ⟨fun m => rfl, ?_, ?_, ?_⟩
  · intro m f hf
    have hq : (m : ℚ) / f * 1000 + 1 / 2 = ((2000 * m + f : ℕ) : ℚ) / ((2 * f : ℕ) : ℚ) := by
      have hf' : (f : ℚ) ≠ 0 := Nat.cast_ne_zero.mpr hf
      push_cast
      field_simp
      ring
    rw [calculatePlayerScore, if_neg hf, round_eq, hq, Rat.floor_natCast_div_natCast]
    exact (Int.ofNat_tdiv _ _).symm
  · intro m m' f hf hm
    rw [calculatePlayerScore, calculatePlayerScore, if_neg hf, if_neg hf]
    exact Nat.div_le_div_right (by omega)
  · intro s
    simp only [recalculateAllScores, List.map_map]
    rfl

/-- Witness for C8 at concrete counters. -/
theorem claim_C8_scoring_witness :
    ((calculatePlayerScore 2 3 : Nat) : ℤ) = round ((2 : ℚ) / (3 : ℚ) * 1000) ∧
    calculatePlayerScore 1 3 ≤ calculatePlayerScore 2 3 :=
  ⟨claim_C8_scoring.2.1 2 3 (by decide),
   claim_C8_scoring.2.2.1 1 2 3 (by decide) (by decide)⟩

-- =========================================================================
-- C9: lifecycle operations
-- =========================================================================

/-- C9 counterexample: `resumeGame` on an uninitialized controller silently
succeeds (it returns without any StateError), contradicting the claim that
it fails before `initGame`. -/
theorem claim_C9_lifecycle_counterexample :
    resumeGame freshController = Except.ok freshController := rfl

/-- C9 (amended): `startGame` fails with a StateError before `initGame` and
after game over; `resumeGame` and `pauseGame` are silent no-ops in those two
situations; in the normal case `startGame`/`resumeGame` clear `isPaused` and
start the timer, and `pauseGame` sets `isPaused` and stops the timer leaving
`timeRemaining` (and everything else) untouched. -/
theorem claim_C9_lifecycle (c : Controller) :
    (c.state = none →
      startGame c = .error "Game not initialized. Call initGame() first." ∧
      pauseGame c = .ok c ∧ resumeGame c = .ok c) ∧
    (∀ s, c.state = some s → s.isGameOver = true →
      startGame c = .error "Game is already over" ∧
      pauseGame c = .ok c ∧ resumeGame c = .ok c) ∧
    (∀ s, c.state = some s → s.isGameOver = false →
      startGame c = .ok { c with state := some { s with isPaused := false }, timerOn := true } ∧
      resumeGame c = .ok { c with state := some { s with isPaused := false }, timerOn := true } ∧
      pauseGame c = .ok { c with state := some { s with isPaused := true }, timerOn := false }) := by
  refine ⟨?_, ?_, ?_⟩
  · intro h; simp [startGame, pauseGame, resumeGame, h]
  · intro s hs hover; simp [startGame, pauseGame, resumeGame, hs, hover]
  · intro s hs hover; simp [startGame, pauseGame, resumeGame, hs, hover]

/-- Witness for C9 on a concrete initialized, not-game-over state. -/
theorem claim_C9_lifecycle_witness :
    startGame ⟨some ⟨⟨.easy, [], ⟨1⟩⟩, [], [], 0, [], 30, true, false, none⟩, false, []⟩ =
      .ok ⟨some ⟨⟨.easy, [], ⟨1⟩⟩, [], [], 0, [], 30, false, false, none⟩, true, []⟩ :=
  (claim_C9_lifecycle _).2.2 _ rfl rfl |>.1

-- =========================================================================
-- C10: deck construction
-- =========================================================================

theorem makeDeck_length (pokes : List Pokemon) (chs : List Nat) :
    (shuffleArray chs (buildPairs 0 pokes)).length = 2 * pokes.length := by
  rw [shuffleArray_length, buildPairs_length]

theorem getRandomPokemon_length (l : List Pokemon) (chs : List Nat) (count : Nat) :
    (getRandomPokemon l chs count).length = min count l.length := by
  simp [getRandomPokemon, List.length_take, shuffleArray_length]

theorem makeDeck_nodup_id (pokes : List Pokemon) (chs : List Nat) :
    ((shuffleArray chs (buildPairs 0 pokes)).map Card.id).Nodup := by
  have hperm : List.Perm ((shuffleArray chs (buildPairs 0 pokes)).map Card.id)
      ((buildPairs 0 pokes).map Card.id) := (shuffleArray_perm _ _).map _
  refine hperm.nodup_iff.mpr ?_
  rw [buildPairs_map_id]
  exact List.nodup_range' 0 (2 * pokes.length) 1 (by norm_num)

theorem makeDeck_pair_count (pokes : List Pokemon) (chs : List Nat)
    (hnd : (pokes.map Pokemon.id).Nodup) (p : Pokemon) (hp : p ∈ pokes) :
    ((shuffleArray chs (buildPairs 0 pokes)).filter
      (fun cd => cd.pokemonId == p.id)).length = 2 := by
  rw [← List.countP_eq_length_filter, (shuffleArray_perm _ _).countP_eq,
    buildPairs_countP, List.count_eq_one_of_mem hnd (List.mem_map_of_mem _ hp)]

/-- C10: every difficulty's card count is even and equals twice its unique
count; and the built deck (for any shuffle choices) has `2 * n` cards, two
cards per provided visual identifier (when the provider's identifiers are
distinct), and pairwise distinct sequential card identifiers -- also through
`generateCards` itself, whose deck size is `2 * min uniqueCount provided`. -/
theorem claim_C10_deck_construction :
    (∀ d, (DIFFICULTY_CONFIG d).totalCards % 2 = 0 ∧
      (DIFFICULTY_CONFIG d).uniquePokemon * 2 = (DIFFICULTY_CONFIG d).totalCards) ∧
    (∀ (pokes : List Pokemon) (chs : List Nat),
      (shuffleArray chs (buildPairs 0 pokes)).length = 2 * pokes.length ∧
      ((shuffleArray chs (buildPairs 0 pokes)).map Card.id).Nodup ∧
      ((pokes.map Pokemon.id).Nodup → ∀ p ∈ pokes,
        ((shuffleArray chs (buildPairs 0 pokes)).filter
          (fun cd => cd.pokemonId == p.id)).length = 2)) ∧
    (∀ (d : Difficulty) (l : List Pokemon) (chs1 chs2 : List Nat) (deck : List Card),
      generateCards d (.ok l) chs1 chs2 = .ok deck →
      deck.length = 2 * min (DIFFICULTY_CONFIG d).uniquePokemon l.length ∧
      (deck.map Card.id).Nodup ∧
      ((l.map Pokemon.id).Nodup → ∀ p ∈ getRandomPokemon l chs1 (DIFFICULTY_CONFIG d).uniquePokemon,
        (deck.filter (fun cd => cd.pokemonId == p.id)).length = 2)) := by
  refine ⟨?_, ?_, ?_⟩
  · intro d; cases d <;> simp [DIFFICULTY_CONFIG]
  · intro pokes chs
    exact ⟨makeDeck_length pokes chs, makeDeck_nodup_id pokes chs,
      fun hnd p hp => makeDeck_pair_count pokes chs hnd p hp⟩
  · intro d l chs1 chs2 deck hgen
    have hdeck : deck = shuffleArray chs2
        (buildPairs 0 (getRandomPokemon l chs1 (DIFFICULTY_CONFIG d).uniquePokemon)) := by
      simpa [generateCards] using hgen.symm
    subst hdeck
    refine ⟨?_, makeDeck_nodup_id _ _, ?_⟩
    · rw [makeDeck_length, getRandomPokemon_length]
    · intro hnd p hp
      have hndsel : ((getRandomPokemon l chs1 (DIFFICULTY_CONFIG d).uniquePokemon).map
          Pokemon.id).Nodup := by
        have hperm : ((shuffleArray chs1 l).map Pokemon.id).Nodup :=
          (((shuffleArray_perm chs1 l)).map Pokemon.id).nodup_iff.mpr hnd
        rw [getRandomPokemon, List.map_take]
        exact (List.take_sublist _ _).nodup hperm
      exact makeDeck_pair_count _ chs2 hndsel p hp

/-- Witness for C10: a concrete two-Pokemon deck has exactly two cards of
the first identifier. -/
theorem claim_C10_deck_construction_witness :
    ((shuffleArray [] (buildPairs 0 [⟨1, "a", "u"⟩, ⟨2, "b", "v"⟩])).filter
      (fun cd => cd.pokemonId == 1)).length = 2 :=
  (claim_C10_deck_construction.2.1 [⟨1, "a", "u"⟩, ⟨2, "b", "v"⟩] []).2.2
    (by decide) ⟨1, "a", "u"⟩ (by decide)

-- =========================================================================
-- C1: flipCard rejection contract
-- =========================================================================

theorem findIdx_id_of_mem (cards : List Card) (card : Card)
    (hnd : (cards.map Card.id).Nodup) (hmem : card ∈ cards) :
    ∃ i, cards.findIdx? (fun cd => cd.id == card.id) = some i ∧ cards[i]? = some card := by
  rcases h : cards.findIdx? (fun cd => cd.id == card.id) with _ | i
  · have := List.findIdx?_eq_none_iff.mp h card hmem
    simp at this
  · obtain ⟨hi, hp, _⟩ := List.findIdx?_eq_some_iff_getElem.mp h
    obtain ⟨k, hk, hkval⟩ := List.mem_iff_getElem.mp hmem
    have hi' : i < (cards.map Card.id).length := by simpa using hi
    have hk' : k < (cards.map Card.id).length := by simpa using hk
    have h1 : (cards.map Card.id).get ⟨i, hi'⟩ = (cards.map Card.id).get ⟨k, hk'⟩ := by
      simp only [List.get_eq_getElem, List.getElem_map]
      rw [hkval]
      exact beq_iff_eq.mp hp
    have hik : i = k :=
      (@List.Nodup.getElem_inj_iff _ _ hnd i hi' k hk').mp
        (by simpa [List.getElem_map] using h1)
    subst hik
    exact ⟨i, h, List.getElem?_eq_some.mpr ⟨hi, hkval⟩⟩

/-- C1 counterexample: in the state `endGame` actually leaves behind
(`isGameOver = true` AND `isPaused = true`), `flipCard` returns `INVALID`
-- the paused check fires first -- rather than the claimed `GAME_OVER`; and
on an uninitialized controller `flipCard` throws instead of returning an
`INVALID` result. -/
theorem claim_C1_flip_rejection_counterexample :
    flipCard ⟨some ⟨⟨.easy, [⟨"p1", "A", 0, true, 0, 0⟩], ⟨1⟩⟩,
        [⟨0, 7, "u", true, true⟩, ⟨1, 7, "u", true, true⟩],
        [⟨"p1", "A", 500, true, 4, 2⟩], 0, [], 30, true, true,
        some ⟨"p1", "A", 500, true, 4, 2⟩⟩, false, []⟩ 0 =
      .ok (.INVALID, ⟨some ⟨⟨.easy, [⟨"p1", "A", 0, true, 0, 0⟩], ⟨1⟩⟩,
        [⟨0, 7, "u", true, true⟩, ⟨1, 7, "u", true, true⟩],
        [⟨"p1", "A", 500, true, 4, 2⟩], 0, [], 30, true, true,
        some ⟨"p1", "A", 500, true, 4, 2⟩⟩, false, []⟩) ∧
    flipCard freshController 0 = .error "Game not initialized" :=
  ⟨rfl, rfl⟩

/-- C1 (amended): `flipCard` throws when uninitialized; returns `INVALID`
whenever the game is paused (which includes every game-over state that
`endGame` produces, since `endGame` also pauses); returns `GAME_OVER` only
when the game is over but not paused; and returns `INVALID` when the card id
is unknown, the card is already matched or flipped, or two cards are already
revealed.  Every rejected call returns the controller completely unchanged. -/
theorem claim_C1_flip_rejection (c : Controller) (cardId : Nat) :
    (c.state = none → flipCard c cardId = .error "Game not initialized") ∧
    (∀ s, c.state = some s → s.isPaused = true →
      flipCard c cardId = .ok (.INVALID, c)) ∧
    (∀ s, c.state = some s → s.isPaused = false → s.isGameOver = true →
      flipCard c cardId = .ok (.GAME_OVER, c)) ∧
    (∀ s, c.state = some s → s.isPaused = false → s.isGameOver = false →
      (∀ card ∈ s.cards, card.id ≠ cardId) →
      flipCard c cardId = .ok (.INVALID, c)) ∧
    (∀ s card, c.state = some s → s.isPaused = false → s.isGameOver = false →
      (s.cards.map Card.id).Nodup → card ∈ s.cards → card.id = cardId →
      (card.isMatched = true ∨ card.isFlipped = true) →
      flipCard c cardId = .ok (.INVALID, c)) ∧
    (∀ s card, c.state = some s → s.isPaused = false → s.isGameOver = false →
      (s.cards.map Card.id).Nodup → card ∈ s.cards → card.id = cardId →
      card.isMatched = false → card.isFlipped = false → 2 ≤ s.revealedCards.length →
      flipCard c cardId = .ok (.INVALID, c)) := by
  refine ⟨?_, ?_, ?_, ?_, ?_, ?_⟩
  · intro h; simp [flipCard, h]
  · intro s hs hp; simp [flipCard, hs, hp]
  · intro s hs hp hover; simp [flipCard, hs, hp, hover]
  · intro s hs hp hover hno
    have hfind : s.cards.findIdx? (fun cd => cd.id == cardId) = none := by
      refine List.findIdx?_eq_none_iff.mpr (fun cd hcd => ?_)
      exact beq_eq_false_iff_ne.mpr (hno cd hcd)
    simp [flipCard, hs, hp, hover, hfind]
  · intro s card hs hp hover hnd hmem hid hflag
    subst hid
    obtain ⟨i, hfind, hget⟩ := findIdx_id_of_mem s.cards card hnd hmem
    rcases hflag with hflag | hflag <;>
      simp [flipCard, hs, hp, hover, hfind, hget, hflag]
  · intro s card hs hp hover hnd hmem hid hm hf hrev
    subst hid
    obtain ⟨i, hfind, hget⟩ := findIdx_id_of_mem s.cards card hnd hmem
    simp [flipCard, hs, hp, hover, hfind, hget, hm, hf, hrev]

/-- Witness for C1 on a concrete paused state. -/
theorem claim_C1_flip_rejection_witness :
    flipCard ⟨some ⟨⟨.easy, [], ⟨1⟩⟩, [⟨0, 3, "u", false, false⟩], [], 0, [], 30,
        true, false, none⟩, false, []⟩ 0 =
      .ok (.INVALID, ⟨some ⟨⟨.easy, [], ⟨1⟩⟩, [⟨0, 3, "u", false, false⟩], [], 0, [], 30,
        true, false, none⟩, false, []⟩) :=
  (claim_C1_flip_rejection _ 0).2.1 _ rfl rfl

-- =========================================================================
-- C2: initGame validation
-- =========================================================================

theorem mem_mapIdxFrom (f : Nat → Player → Player) :
    ∀ (start : Nat) (l : List Player) (q : Player), q ∈ mapIdxFrom f start l →
      ∃ i p, p ∈ l ∧ q = f i p := by
  intro start l
  induction l generalizing start with
  | nil => intro q h; simp [mapIdxFrom] at h
  | cons p ps ih =>
    intro q h
    rcases List.mem_cons.mp h with h | h
    · exact ⟨start, p, List.mem_cons_self p ps, h⟩
    · obtain ⟨i, p', hp', hq⟩ := ih (start + 1) q h
      exact ⟨i, p', List.mem_cons_of_mem p hp', hq⟩

/-- Observe the deck size of an `initGame` result (used to exhibit concrete
outcomes without spelling out the whole controller). -/
def initGameDeckLength (r : Except String Controller) : Option Nat :=
  match r with
  | .ok c =>
    match c.state with
    | some s => some s.cards.length
    | none => none
  | .error _ => none

/-- C2 counterexample: a provider that can only supply 3 of the 4 distinct
identifiers EASY requires does not make `initGame` fail -- the call succeeds
and installs a 6-card deck (instead of the 8 cards the difficulty table
specifies).  `getRandomPokemon` silently truncates with
`slice(0, Math.min(count, length))`. -/
theorem claim_C2_initGame_counterexample :
    initGameDeckLength (initGame freshController
      ⟨.easy, [⟨"p1", "A", 0, true, 0, 0⟩], ⟨1⟩⟩
      (.ok [⟨1, "a", "u"⟩, ⟨2, "b", "v"⟩, ⟨3, "c", "w"⟩]) [] []) = some 6 := rfl

/-- C2 (amended): `initGame` fails exactly when the player count is outside
`[1,4]` (ValidationError) or the provider's fetch itself fails (the error is
propagated); a provider returning fewer than `uniqueCount` identifiers is
NOT an error -- the deck is built from the `min(uniqueCount, supplied)`
identifiers available.  Failures happen before any state is installed, and a
successful call installs the fully seeded fresh state (counters zero, player
0 active, paused, timer at full duration). -/
theorem claim_C2_initGame (c : Controller) (config : GameConfig)
    (fetched : Except String (List Pokemon)) (chs1 chs2 : List Nat) :
    (config.players.length < 1 ∨ config.players.length > 4 →
      initGame c config fetched chs1 chs2 = .error "Game requires 1-4 players") ∧
    (∀ e, 1 ≤ config.players.length → config.players.length ≤ 4 →
      fetched = .error e → initGame c config fetched chs1 chs2 = .error e) ∧
    (∀ l, 1 ≤ config.players.length → config.players.length ≤ 4 →
      fetched = .ok l →
      ∃ c' s', initGame c config fetched chs1 chs2 = .ok c' ∧
        c'.state = some s' ∧ c'.timerOn = c.timerOn ∧ c'.pending = c.pending ∧
        s'.cards.length =
          2 * min (DIFFICULTY_CONFIG config.difficulty).uniquePokemon l.length ∧
        s'.currentPlayerIndex = 0 ∧ s'.revealedCards = [] ∧
        s'.timeRemaining = TIMER_DURATION ∧ s'.isPaused = true ∧
        s'.isGameOver = false ∧ s'.winner = none ∧
        s'.players.length = config.players.length ∧
        (∀ p ∈ s'.players, p.score = 0 ∧ p.totalFlips = 0 ∧ p.matchCount = 0)) := by
  refine ⟨?_, ?_, ?_⟩
  · intro h
    rw [initGame, if_pos h]
  · intro e h1 h4 hf
    subst hf
    have hcond : ¬(config.players.length < 1 ∨ config.players.length > 4) := by omega
    rw [initGame, if_neg hcond]
    rfl
  · intro l h1 h4 hf
    subst hf
    have hcond : ¬(config.players.length < 1 ∨ config.players.length > 4) := by omega
    refine ⟨{ c with state := some {
        config := config
        cards := shuffleArray chs2 (buildPairs 0
          (getRandomPokemon l chs1 (DIFFICULTY_CONFIG config.difficulty).uniquePokemon))
        players := mapIdxFrom (fun i p =>
          { p with score := 0, totalFlips := 0, matchCount := 0,
                   isActive := i == 0 }) 0 config.players
        currentPlayerIndex := 0
        revealedCards := []
        timeRemaining := TIMER_DURATION
        isPaused := true
        isGameOver := false
        winner := none } }, _, ?_, rfl, rfl, rfl, ?_, rfl, rfl, rfl, rfl, rfl, rfl, ?_, ?_⟩
    · rw [initGame, if_neg hcond]
      rfl
    · rw [makeDeck_length, getRandomPokemon_length]
    · exact mapIdxFrom_length _ 0 config.players
    · intro p hp
      obtain ⟨i, q, _, hq⟩ := mem_mapIdxFrom _ 0 config.players p hp
      subst hq
      exact ⟨rfl, rfl, rfl⟩

/-- Witness for C2: a concrete in-range configuration with a single supplied
identifier yields a two-card deck. -/
theorem claim_C2_initGame_witness :
    initGameDeckLength (initGame freshController
      ⟨.easy, [⟨"p1", "A", 0, true, 0, 0⟩], ⟨1⟩⟩ (.ok [⟨1, "a", "u"⟩]) [] []) = some 2 := by
  obtain ⟨c', s', hok, hs, _, _, hlen, _⟩ :=
    (claim_C2_initGame freshController ⟨.easy, [⟨"p1", "A", 0, true, 0, 0⟩], ⟨1⟩⟩
      (.ok [⟨1, "a", "u"⟩]) [] []).2.2 [⟨1, "a", "u"⟩] (by decide) (by decide) rfl
  rw [hok]
  simp [initGameDeckLength, hs, hlen, DIFFICULTY_CONFIG]

-- =========================================================================
-- C6: the timer keeps running during the comparison delay
-- =========================================================================

/-- A state mid-game: player 0 has flipped the matching cards 0 and 1 (its
flip counter shows 2), the comparison callback for `(0, 1)` is pending, the
revealed set has already been cleared, the game is NOT paused, and one
second remains on the clock. -/
def pendingComparisonScenario : Controller :=
  ⟨some ⟨⟨.easy, [], ⟨1⟩⟩,
    [⟨0, 7, "", true, false⟩, ⟨1, 7, "", true, false⟩,
     ⟨2, 8, "", false, false⟩, ⟨3, 8, "", false, false⟩],
    [⟨"p1", "A", 0, true, 2, 0⟩, ⟨"p2", "B", 0, false, 0, 0⟩],
    0, [], 1, false, false, none⟩, true, [(0, 1)]⟩

/-- C6: `pauseTimer` and `resumeTimer` change nothing, so while the game is
not paused the countdown keeps decrementing even though a comparison is
pending; in the concrete scenario the timer expires during the delay, the
turn switches to player 1 first, and when the comparison callback then fires
the match is credited to player 1 -- not to player 0, who revealed both
cards (the flip counters `[2, 0]` show player 0 did the flipping). -/
theorem claim_C6_timer_runs_during_comparison :
    (∀ c, pauseTimer c = c) ∧
    (∀ c, resumeTimer c = c) ∧
    (∀ c s, c.state = some s → c.timerOn = true → s.isPaused = false →
      1 < s.timeRemaining →
      tick c = { c with state := some { s with timeRemaining := s.timeRemaining - 1 } }) ∧
    ((compareFire (tick pendingComparisonScenario) 0).state.map (fun s =>
      (s.players.map Player.matchCount, s.players.map Player.totalFlips,
       s.currentPlayerIndex, s.isPaused)) = some ([0, 1], [2, 0], 1, true)) := by
  refine ⟨fun c => rfl, fun c => rfl, ?_, ?_⟩
  · intro c s hs ht hp hgt
    have hnexp : ¬({ s with timeRemaining := s.timeRemaining - 1 }.timeRemaining ≤ 0) := by
      simp only []
      omega
    simp [tick, hs, ht, hp, hnexp]
  · rfl

/-- Witness for C6's decrement clause at a concrete running state. -/
theorem claim_C6_timer_runs_during_comparison_witness :
    tick ⟨some ⟨⟨.easy, [], ⟨1⟩⟩, [], [⟨"p1", "A", 0, true, 0, 0⟩], 0, [], 30,
        false, false, none⟩, true, [(2, 3)]⟩ =
      ⟨some ⟨⟨.easy, [], ⟨1⟩⟩, [], [⟨"p1", "A", 0, true, 0, 0⟩], 0, [], 29,
        false, false, none⟩, true, [(2, 3)]⟩ :=
  claim_C6_timer_runs_during_comparison.2.2.1 _ _ rfl rfl rfl (by decide)

-- =========================================================================
-- C3: match resolution
-- =========================================================================

theorem map_isActive_modifyAt (f : Player → Player)
    (hf : ∀ p, (f p).isActive = p.isActive) :
    ∀ (n : Nat) (l : List Player),
      (modifyAt f n l).map Player.isActive = l.map Player.isActive := by
  intro n l
  induction l generalizing n with
  | nil => cases n <;> rfl
  | cons p ps ih =>
    cases n with
    | zero => simp [modifyAt, hf]
    | succ m => simp [modifyAt, ih m]

/-- What `endGame` does to the state fields other than `winner`: flags set,
scores recomputed, everything else untouched, timer stopped. -/
theorem endGame_state_fields (c : Controller) (s : GameState) :
    ∃ s', (endGame c s).1.state = some s' ∧
      s'.cards = s.cards ∧
      s'.currentPlayerIndex = s.currentPlayerIndex ∧
      s'.timeRemaining = s.timeRemaining ∧
      s'.isGameOver = true ∧ s'.isPaused = true ∧
      s'.players = s.players.map (fun p =>
        { p with score := calculatePlayerScore p.matchCount p.totalFlips }) ∧
      (endGame c s).1.timerOn = false ∧
      s'.revealedCards = s.revealedCards ∧
      (endGame c s).1.pending = c.pending := by
  unfold endGame
  dsimp only
  rcases h : (recalculateAllScores { s with isGameOver := true, isPaused := true }).players.mergeSort
      (fun a b => decide (b.score ≤ a.score)) with _ | ⟨top, tail⟩ <;>
    exact ⟨_, rfl, rfl, rfl, rfl, rfl, rfl, rfl, rfl, rfl, rfl⟩

/-- C3: firing the comparison callback on two flipped cards with equal
visual-identity keys marks both matched (leaving them flipped), leaves the
active player (index and `isActive` flags) unchanged, increments that
player's match counter, recomputes that player's score from the two
counters, and resets `timeRemaining` to the full configured duration --
whether or not the match ends the game. -/
theorem claim_C3_match_resolution (c : Controller) (s : GameState) (fi si : Nat)
    (first second : Card)
    (hs : c.state = some s)
    (hf : s.cards[fi]? = some first) (hsi : s.cards[si]? = some second)
    (hflip1 : first.isFlipped = true) (hflip2 : second.isFlipped = true)
    (heq : first.pokemonId = second.pokemonId)
    (hidx : s.currentPlayerIndex < s.players.length) :
    ∃ s', (compareFirePair c fi si).state = some s' ∧
      (∃ f', s'.cards[fi]? = some f' ∧ f'.isMatched = true ∧ f'.isFlipped = true) ∧
      (∃ s2, s'.cards[si]? = some s2 ∧ s2.isMatched = true ∧ s2.isFlipped = true) ∧
      s'.currentPlayerIndex = s.currentPlayerIndex ∧
      s'.players.map Player.isActive = s.players.map Player.isActive ∧
      (∃ p p', s.players[s.currentPlayerIndex]? = some p ∧
        s'.players[s.currentPlayerIndex]? = some p' ∧
        p'.matchCount = p.matchCount + 1 ∧ p'.totalFlips = p.totalFlips ∧
        p'.isActive = p.isActive ∧
        p'.score = calculatePlayerScore (p.matchCount + 1) p.totalFlips) ∧
      s'.timeRemaining = TIMER_DURATION := by
  have hfb : fi < s.cards.length := (List.getElem?_eq_some.mp hf).1
  have hsb : si < s.cards.length := (List.getElem?_eq_some.mp hsi).1
  obtain ⟨p, hp⟩ : ∃ p, s.players[s.currentPlayerIndex]? = some p :=
    ⟨_, List.getElem?_eq_getElem hidx⟩
  have hred : compareFirePair c fi si =
      (if checkWinCondition { s with
          cards := (s.cards.set fi { first with isMatched := true }).set si
            { second with isMatched := true },
          players := modifyAt (fun q =>
            { q with matchCount := q.matchCount + 1,
                     score := calculatePlayerScore (q.matchCount + 1) q.totalFlips })
            s.currentPlayerIndex s.players,
          timeRemaining := TIMER_DURATION }
       then (endGame { c with state := some { s with
          cards := (s.cards.set fi { first with isMatched := true }).set si
            { second with isMatched := true },
          players := modifyAt (fun q =>
            { q with matchCount := q.matchCount + 1,
                     score := calculatePlayerScore (q.matchCount + 1) q.totalFlips })
            s.currentPlayerIndex s.players,
          timeRemaining := TIMER_DURATION } } { s with
          cards := (s.cards.set fi { first with isMatched := true }).set si
            { second with isMatched := true },
          players := modifyAt (fun q =>
            { q with matchCount := q.matchCount + 1,
                     score := calculatePlayerScore (q.matchCount + 1) q.totalFlips })
            s.currentPlayerIndex s.players,
          timeRemaining := TIMER_DURATION }).1
       else { c with state := some { s with
          cards := (s.cards.set fi { first with isMatched := true }).set si
            { second with isMatched := true },
          players := modifyAt (fun q =>
            { q with matchCount := q.matchCount + 1,
                     score := calculatePlayerScore (q.matchCount + 1) q.totalFlips })
            s.currentPlayerIndex s.players,
          timeRemaining := TIMER_DURATION } }) := by
    simp only [compareFirePair, hs, hf, hsi, if_pos heq, resumeTimer]
    rfl
  rw [hred]
  set F : Card := { first with isMatched := true } with hF
  set S : Card := { second with isMatched := true } with hS
  set X : GameState := { s with
      cards := (s.cards.set fi F).set si S,
      players := modifyAt (fun q =>
        { q with matchCount := q.matchCount + 1,
                 score := calculatePlayerScore (q.matchCount + 1) q.totalFlips })
        s.currentPlayerIndex s.players,
      timeRemaining := TIMER_DURATION } with hX
  have hcards_si : X.cards[si]? = some S := by
    rw [hX]
    have hb : si < (s.cards.set fi F).length := by simpa using hsb
    simp [List.getElem?_set, hb, hsb]
  have hcards_fi : ∃ f', X.cards[fi]? = some f' ∧
      f'.isMatched = true ∧ f'.isFlipped = true := by
    by_cases hfisi : fi = si
    · subst hfisi
      exact ⟨S, hcards_si, rfl, hflip2⟩
    · refine ⟨F, ?_, rfl, hflip1⟩
      rw [hX]
      show ((s.cards.set fi F).set si S)[fi]? = some F
      rw [List.getElem?_set, if_neg (fun h => hfisi h.symm), List.getElem?_set,
        if_pos rfl, if_pos hfb]
  have hXplayers : X.players[s.currentPlayerIndex]? =
      some { p with matchCount := p.matchCount + 1,
                    score := calculatePlayerScore (p.matchCount + 1) p.totalFlips } := by
    rw [hX]
    show (modifyAt _ _ _)[s.currentPlayerIndex]? = _
    rw [getElem?_modifyAt, if_pos rfl, hp]
    rfl
  have hXactive : X.players.map Player.isActive = s.players.map Player.isActive := by
    rw [hX]
    show List.map Player.isActive (modifyAt _ _ _) = _
    exact map_isActive_modifyAt (fun q =>
        { q with matchCount := q.matchCount + 1,
                 score := calculatePlayerScore (q.matchCount + 1) q.totalFlips })
      (fun q => rfl) _ _
  have hXcpi : X.currentPlayerIndex = s.currentPlayerIndex := by rw [hX]
  have hXtime : X.timeRemaining = TIMER_DURATION := by rw [hX]
  split
  · obtain ⟨s', hstate, hcards, hcpi, htime, _, _, hplayers', _⟩ :=
      endGame_state_fields { c with state := some X } X
    refine ⟨s', hstate, ?_, ?_, ?_, ?_, ?_, ?_⟩
    · rw [hcards]; exact hcards_fi
    · rw [hcards]; exact hcards_si ▸ ⟨S, rfl, rfl, hflip2⟩
    · rw [hcpi, hXcpi]
    · rw [hplayers', List.map_map]
      rw [show (Player.isActive ∘ fun p =>
          { p with score := calculatePlayerScore p.matchCount p.totalFlips }) =
          Player.isActive from rfl]
      exact hXactive
    · rw [hplayers']
      refine ⟨p, { p with matchCount := p.matchCount + 1, score := calculatePlayerScore (p.matchCount + 1) p.totalFlips }, hp, ?_, rfl, rfl, rfl, rfl⟩
      rw [List.getElem?_map, hXplayers]
      rfl
    · rw [htime, hXtime]
  · exact ⟨X, rfl, hcards_fi, ⟨S, hcards_si, rfl, hflip2⟩, hXcpi, hXactive,
      ⟨p, { p with matchCount := p.matchCount + 1, score := calculatePlayerScore (p.matchCount + 1) p.totalFlips }, hp, hXplayers, rfl, rfl, rfl, rfl⟩, hXtime⟩

/-- Witness for C3 on a concrete pending match. -/
theorem claim_C3_match_resolution_witness :
    ∃ s', (compareFirePair pendingComparisonScenario 0 1).state = some s' ∧
      (∃ f', s'.cards[0]? = some f' ∧ f'.isMatched = true ∧ f'.isFlipped = true) ∧
      (∃ s2, s'.cards[1]? = some s2 ∧ s2.isMatched = true ∧ s2.isFlipped = true) ∧
      s'.currentPlayerIndex = 0 ∧
      s'.players.map Player.isActive = [true, false] ∧
      (∃ p p', [(⟨"p1", "A", 0, true, 2, 0⟩ : Player),
          ⟨"p2", "B", 0, false, 0, 0⟩][(0 : Nat)]? = some p ∧
        s'.players[(0 : Nat)]? = some p' ∧
        p'.matchCount = p.matchCount + 1 ∧ p'.totalFlips = p.totalFlips ∧
        p'.isActive = p.isActive ∧
        p'.score = calculatePlayerScore (p.matchCount + 1) p.totalFlips) ∧
      s'.timeRemaining = TIMER_DURATION :=
  claim_C3_match_resolution pendingComparisonScenario _ 0 1
    ⟨0, 7, "", true, false⟩ ⟨1, 7, "", true, false⟩
    rfl rfl rfl rfl rfl rfl (by decide)

-- =========================================================================
-- C4: mismatch resolution
-- =========================================================================

/-- C4: firing the comparison callback on two flipped cards with different
visual-identity keys un-flips both cards, advances the current player index
by exactly one modulo the player count, refreshes every player's `isActive`
flag to match the new index, resets the timer to the full duration, pauses
the game (auto-pause between turns) and stops the interval timer. -/
theorem claim_C4_mismatch_resolution (c : Controller) (s : GameState) (fi si : Nat)
    (first second : Card)
    (hs : c.state = some s)
    (hf : s.cards[fi]? = some first) (hsi : s.cards[si]? = some second)
    (hflip1 : first.isFlipped = true) (hflip2 : second.isFlipped = true)
    (hne : first.pokemonId ≠ second.pokemonId) :
    ∃ s', (compareFirePair c fi si).state = some s' ∧
      s'.cards[fi]? = some { first with isFlipped := false } ∧
      s'.cards[si]? = some { second with isFlipped := false } ∧
      s'.currentPlayerIndex = (s.currentPlayerIndex + 1) % s.players.length ∧
      s'.players.length = s.players.length ∧
      (∀ i q, s'.players[i]? = some q →
        (q.isActive = true ↔ i = s'.currentPlayerIndex)) ∧
      s'.timeRemaining = TIMER_DURATION ∧
      s'.isPaused = true ∧
      (compareFirePair c fi si).timerOn = false := by
  have hfb : fi < s.cards.length := (List.getElem?_eq_some.mp hf).1
  have hsb : si < s.cards.length := (List.getElem?_eq_some.mp hsi).1
  have hfs : fi ≠ si := by
    intro h
    subst h
    rw [hf] at hsi
    cases hsi
    exact hne rfl
  have hred : compareFirePair c fi si =
      { c with timerOn := false, state := some { s with
          cards := (s.cards.set fi { first with isFlipped := false }).set si
            { second with isFlipped := false },
          currentPlayerIndex := (s.currentPlayerIndex + 1) % s.players.length,
          players := (mapIdxFrom
            (fun i p =>
              { p with isActive := i == (s.currentPlayerIndex + 1) % s.players.length })
            0 s.players),
          timeRemaining := TIMER_DURATION,
          isPaused := true } } := by
    simp only [compareFirePair, hs, hf, hsi, if_neg hne, switchPlayerC, switchPlayer]
  rw [hred]
  set F : Card := { first with isFlipped := false } with hF
  set S : Card := { second with isFlipped := false } with hS
  refine ⟨_, rfl, ?_, ?_, rfl, ?_, ?_, rfl, rfl, rfl⟩
  · show ((s.cards.set fi F).set si S)[fi]? = some F
    rw [List.getElem?_set, if_neg (fun h => hfs h.symm), List.getElem?_set,
      if_pos rfl, if_pos hfb]
  · show ((s.cards.set fi F).set si S)[si]? = some S
    have hb : si < (s.cards.set fi F).length := by simpa using hsb
    rw [List.getElem?_set, if_pos rfl, if_pos hb]
  · show (mapIdxFrom _ 0 s.players).length = s.players.length
    exact mapIdxFrom_length _ 0 s.players
  · intro i q hq
    show q.isActive = true ↔ i = (s.currentPlayerIndex + 1) % s.players.length
    rw [getElem?_mapIdxFrom] at hq
    rcases hmem : s.players[i]? with _ | q0
    · rw [hmem] at hq; cases hq
    · rw [hmem] at hq
      have hq2 : some ({ q0 with
          isActive := (0 + i) == (s.currentPlayerIndex + 1) % s.players.length } : Player)
          = some q := hq
      have hq' := (Option.some.inj hq2).symm
      subst hq'
      simp [beq_iff_eq, Nat.zero_add]

/-- A state mid-game where player 0 has flipped the non-matching cards 0 and
2 and the comparison callback is about to fire. -/
def mismatchState : GameState :=
  ⟨⟨.easy, [], ⟨1⟩⟩,
    [⟨0, 7, "", true, false⟩, ⟨1, 7, "", false, false⟩,
     ⟨2, 8, "", true, false⟩, ⟨3, 8, "", false, false⟩],
    [⟨"p1", "A", 0, true, 2, 0⟩, ⟨"p2", "B", 0, false, 0, 0⟩],
    0, [], 17, false, false, none⟩

def mismatchScenario : Controller := ⟨some mismatchState, true, []⟩

/-- Witness for C4 on a concrete pending mismatch: player 0 flipped cards 0
and 2 (different Pokemon), the callback un-flips both and hands the turn to
player 1. -/
theorem claim_C4_mismatch_resolution_witness :
    ∃ s', (compareFirePair mismatchScenario 0 2).state = some s' ∧
      s'.cards[0]? = some { (⟨0, 7, "", true, false⟩ : Card) with isFlipped := false } ∧
      s'.cards[2]? = some { (⟨2, 8, "", true, false⟩ : Card) with isFlipped := false } ∧
      s'.currentPlayerIndex = (mismatchState.currentPlayerIndex + 1) % mismatchState.players.length ∧
      s'.players.length = mismatchState.players.length ∧
      (∀ i q, s'.players[i]? = some q →
        (q.isActive = true ↔ i = s'.currentPlayerIndex)) ∧
      s'.timeRemaining = TIMER_DURATION ∧
      s'.isPaused = true ∧
      (compareFirePair mismatchScenario 0 2).timerOn = false :=
  claim_C4_mismatch_resolution mismatchScenario mismatchState 0 2
    ⟨0, 7, "", true, false⟩ ⟨2, 8, "", true, false⟩
    rfl rfl rfl rfl rfl (by decide)

-- =========================================================================
-- C5: game-over resolution
-- =========================================================================

/-- C5: the win condition is exactly "every card is matched", and `endGame`
stops the timer, marks the game over (and paused), recomputes every player's
score from its two counters, reports a final list that is a
score-descending-sorted permutation of the players, and sets `winner` to the
head of the winner set when that set (all players sharing the maximal score)
is a singleton, and to `null` otherwise; the full winner set is the first
component of the emitted payload. -/
theorem claim_C5_game_over_resolution (c : Controller) (s : GameState)
    (hne : s.players ≠ []) :
    (checkWinCondition s = true ↔ ∀ card ∈ s.cards, card.isMatched = true) ∧
    (endGame c s).1.timerOn = false ∧
    ∃ s', (endGame c s).1.state = some s' ∧
      s'.isGameOver = true ∧ s'.isPaused = true ∧
      (∀ p ∈ s'.players, p.score = calculatePlayerScore p.matchCount p.totalFlips) ∧
      List.Perm (endGame c s).2.2 s'.players ∧
      List.Pairwise (fun a b => b.score ≤ a.score) (endGame c s).2.2 ∧
      ∃ top rest, (endGame c s).2.2 = top :: rest ∧
        top ∈ s'.players ∧
        (∀ q ∈ s'.players, q.score ≤ top.score) ∧
        (endGame c s).2.1 = (endGame c s).2.2.filter (fun p => p.score == top.score) ∧
        s'.winner =
          (if ((endGame c s).2.1).length = 1 then ((endGame c s).2.1).head? else none) := by
  refine ⟨by simp [checkWinCondition, List.all_eq_true], ?_⟩
  have htrans : ∀ (a b cc : Player), (decide (b.score ≤ a.score)) = true →
      (decide (cc.score ≤ b.score)) = true → (decide (cc.score ≤ a.score)) = true := by
    intro a b cc h1 h2
    simp only [decide_eq_true_eq] at h1 h2 ⊢
    omega
  have htotal : ∀ (a b : Player),
      ((decide (b.score ≤ a.score)) || (decide (a.score ≤ b.score))) = true := by
    intro a b
    simp only [Bool.or_eq_true, decide_eq_true_eq]
    omega
  unfold endGame
  dsimp only
  rcases h : (recalculateAllScores { s with isGameOver := true, isPaused := true }).players.mergeSort
      (fun a b => decide (b.score ≤ a.score)) with _ | ⟨top, rest⟩
  · exfalso
    have hperm := List.mergeSort_perm
      (recalculateAllScores { s with isGameOver := true, isPaused := true }).players
      (fun a b => decide (b.score ≤ a.score))
    rw [h] at hperm
    have : (recalculateAllScores { s with isGameOver := true, isPaused := true }).players = [] :=
      (List.perm_nil.mp hperm.symm)
    exact hne (List.map_eq_nil_iff.mp this)
  · have hperm := List.mergeSort_perm
      (recalculateAllScores { s with isGameOver := true, isPaused := true }).players
      (fun a b => decide (b.score ≤ a.score))
    rw [h] at hperm
    have hsorted := List.sorted_mergeSort htrans htotal
      (recalculateAllScores { s with isGameOver := true, isPaused := true }).players
    rw [h] at hsorted
    have hsorted' : List.Pairwise (fun a b => b.score ≤ a.score) (top :: rest) :=
      hsorted.imp (fun hab => by simpa using hab)
    have htop : ∀ q ∈ top :: rest, q.score ≤ top.score := by
      intro q hq
      rcases List.mem_cons.mp hq with hq | hq
      · subst hq; exact Nat.le_refl _
      · exact (List.pairwise_cons.mp hsorted').1 q hq
    refine ⟨rfl, _, rfl, rfl, rfl, ?_, hperm, hsorted', top, rest, rfl, ?_, ?_, rfl, rfl⟩
    · intro p hp
      obtain ⟨q, _, rfl⟩ := List.mem_map.mp hp
      rfl
    · exact hperm.mem_iff.mp (List.mem_cons_self top rest)
    · intro q hq
      exact htop q (hperm.mem_iff.mpr hq)

/-- Witness for C5: a finished two-player game with equal scores yields a
tie (`winner = none`, both players in the winner set). -/
theorem claim_C5_game_over_resolution_witness :
    (checkWinCondition ⟨⟨.easy, [], ⟨1⟩⟩, [⟨0, 7, "", true, true⟩, ⟨1, 7, "", true, true⟩],
        [⟨"p1", "A", 0, true, 4, 2⟩, ⟨"p2", "B", 0, false, 4, 2⟩],
        0, [], 30, false, false, none⟩ = true ↔
      ∀ card ∈ [(⟨0, 7, "", true, true⟩ : Card), ⟨1, 7, "", true, true⟩],
        card.isMatched = true) ∧
    (endGame freshController ⟨⟨.easy, [], ⟨1⟩⟩,
        [⟨0, 7, "", true, true⟩, ⟨1, 7, "", true, true⟩],
        [⟨"p1", "A", 0, true, 4, 2⟩, ⟨"p2", "B", 0, false, 4, 2⟩],
        0, [], 30, false, false, none⟩).1.timerOn = false ∧
    ∃ s', (endGame freshController ⟨⟨.easy, [], ⟨1⟩⟩,
        [⟨0, 7, "", true, true⟩, ⟨1, 7, "", true, true⟩],
        [⟨"p1", "A", 0, true, 4, 2⟩, ⟨"p2", "B", 0, false, 4, 2⟩],
        0, [], 30, false, false, none⟩).1.state = some s' ∧
      s'.isGameOver = true ∧ s'.isPaused = true ∧
      (∀ p ∈ s'.players, p.score = calculatePlayerScore p.matchCount p.totalFlips) ∧
      List.Perm (endGame freshController ⟨⟨.easy, [], ⟨1⟩⟩,
        [⟨0, 7, "", true, true⟩, ⟨1, 7, "", true, true⟩],
        [⟨"p1", "A", 0, true, 4, 2⟩, ⟨"p2", "B", 0, false, 4, 2⟩],
        0, [], 30, false, false, none⟩).2.2 s'.players ∧
      List.Pairwise (fun a b => b.score ≤ a.score) (endGame freshController ⟨⟨.easy, [], ⟨1⟩⟩,
        [⟨0, 7, "", true, true⟩, ⟨1, 7, "", true, true⟩],
        [⟨"p1", "A", 0, true, 4, 2⟩, ⟨"p2", "B", 0, false, 4, 2⟩],
        0, [], 30, false, false, none⟩).2.2 ∧
      ∃ top rest, (endGame freshController ⟨⟨.easy, [], ⟨1⟩⟩,
        [⟨0, 7, "", true, true⟩, ⟨1, 7, "", true, true⟩],
        [⟨"p1", "A", 0, true, 4, 2⟩, ⟨"p2", "B", 0, false, 4, 2⟩],
        0, [], 30, false, false, none⟩).2.2 = top :: rest ∧
        top ∈ s'.players ∧
        (∀ q ∈ s'.players, q.score ≤ top.score) ∧
        (endGame freshController ⟨⟨.easy, [], ⟨1⟩⟩,
          [⟨0, 7, "", true, true⟩, ⟨1, 7, "", true, true⟩],
          [⟨"p1", "A", 0, true, 4, 2⟩, ⟨"p2", "B", 0, false, 4, 2⟩],
          0, [], 30, false, false, none⟩).2.1 =
          ((endGame freshController ⟨⟨.easy, [], ⟨1⟩⟩,
            [⟨0, 7, "", true, true⟩, ⟨1, 7, "", true, true⟩],
            [⟨"p1", "A", 0, true, 4, 2⟩, ⟨"p2", "B", 0, false, 4, 2⟩],
            0, [], 30, false, false, none⟩).2.2).filter (fun p => p.score == top.score) ∧
        s'.winner = (if ((endGame freshController ⟨⟨.easy, [], ⟨1⟩⟩,
            [⟨0, 7, "", true, true⟩, ⟨1, 7, "", true, true⟩],
            [⟨"p1", "A", 0, true, 4, 2⟩, ⟨"p2", "B", 0, false, 4, 2⟩],
            0, [], 30, false, false, none⟩).2.1).length = 1
          then ((endGame freshController ⟨⟨.easy, [], ⟨1⟩⟩,
            [⟨0, 7, "", true, true⟩, ⟨1, 7, "", true, true⟩],
            [⟨"p1", "A", 0, true, 4, 2⟩, ⟨"p2", "B", 0, false, 4, 2⟩],
            0, [], 30, false, false, none⟩).2.1).head? else none) :=
  claim_C5_game_over_resolution freshController _ (by decide)

-- =========================================================================
-- C7: matched cards are permanent -- transition system and invariant
-- =========================================================================

/-- The card at index `i` is face-up and not yet matched (the state of every
card referenced by the revealed set or by a pending comparison pair). -/
def cardOk (cards : List Card) (i : Nat) : Prop :=
  ∃ card, cards[i]? = some card ∧ card.isFlipped = true ∧ card.isMatched = false

/-- A pending comparison pair references two distinct face-up unmatched
cards. -/
def pairOk (cards : List Card) (pr : Nat × Nat) : Prop :=
  cardOk cards pr.1 ∧ cardOk cards pr.2 ∧ pr.1 ≠ pr.2

/-- Two pending pairs share no card. -/
def pairDisjoint (pr q : Nat × Nat) : Prop :=
  pr.1 ≠ q.1 ∧ pr.1 ≠ q.2 ∧ pr.2 ≠ q.1 ∧ pr.2 ≠ q.2

/-- The structural invariant tying the cards, the revealed set and the
pending comparison callbacks together. -/
def StateInv (cards : List Card) (revealed : List Nat)
    (pending : List (Nat × Nat)) : Prop :=
  (∀ pr ∈ pending, pairOk cards pr) ∧
  (∀ i ∈ revealed, cardOk cards i) ∧
  (∀ i ∈ revealed, ∀ pr ∈ pending, i ≠ pr.1 ∧ i ≠ pr.2) ∧
  List.Pairwise pairDisjoint pending ∧
  (∀ (i : Nat) (card : Card), cards[i]? = some card →
    card.isMatched = true → card.isFlipped = true)

def Inv (c : Controller) : Prop :=
  ∀ s, c.state = some s → StateInv s.cards s.revealedCards c.pending

/-- One step of the controller's event loop: a public lifecycle call that
does not throw, a non-throwing `flipCard`, one firing of the interval
callback, or the firing of one scheduled comparison callback. -/
inductive Step : Controller → Controller → Prop
  | start (c c' : Controller) (h : startGame c = .ok c') : Step c c'
  | pause (c c' : Controller) (h : pauseGame c = .ok c') : Step c c'
  | resume (c c' : Controller) (h : resumeGame c = .ok c') : Step c c'
  | flip (c c' : Controller) (cardId : Nat) (r : TurnResult)
      (h : flipCard c cardId = .ok (r, c')) : Step c c'
  | timerTick (c : Controller) : Step c (tick c)
  | fire (c : Controller) (k : Nat) : Step c (compareFire c k)

/-- A controller reachable from a fresh controller by `initGame` followed by
any sequence of steps. -/
def Reachable (c : Controller) : Prop :=
  ∃ c₀ config fetched chs1 chs2,
    initGame freshController config fetched chs1 chs2 = .ok c₀ ∧
    Relation.ReflTransGen Step c₀ c

/-- Between two controllers: every card matched in the first stays matched
(and remains face-up) at the same position in the second. -/
def MatchedMono (c c' : Controller) : Prop :=
  ∀ s s', c.state = some s → c'.state = some s' →
    s'.cards.length = s.cards.length ∧
    ∀ (i : Nat) (card card' : Card), s.cards[i]? = some card →
      s'.cards[i]? = some card' →
      card.isMatched = true → card'.isMatched = true ∧ card'.isFlipped = true

-- Helper lemmas for the preservation proof

theorem pairDisjoint_symm (pr q : Nat × Nat) (h : pairDisjoint pr q) :
    pairDisjoint q pr :=
  ⟨h.1.symm, h.2.2.1.symm, h.2.1.symm, h.2.2.2.symm⟩

theorem mem_eraseIdx {α : Type} :
    ∀ (l : List α) (k : Nat) (b : α), b ∈ l.eraseIdx k →
      ∃ j, j ≠ k ∧ l[j]? = some b := by
  intro l
  induction l with
  | nil => intro k b h; simp [List.eraseIdx] at h
  | cons a t ih =>
    intro k b h
    cases k with
    | zero =>
      simp only [List.eraseIdx] at h
      obtain ⟨j, hjval⟩ := List.mem_iff_getElem?.mp h
      exact ⟨j + 1, by omega, by simpa using hjval⟩
    | succ m =>
      simp only [List.eraseIdx, List.mem_cons] at h
      rcases h with h | h
      · exact ⟨0, by omega, by simp [h]⟩
      · obtain ⟨j, hj, hjval⟩ := ih m b h
        exact ⟨j + 1, by omega, by simpa using hjval⟩

theorem pairwise_getElem_rel {α : Type} (R : α → α → Prop)
    (hsymm : ∀ a b, R a b → R b a) (l : List α) (h : List.Pairwise R l)
    (j k : Nat) (a b : α) (hj : l[j]? = some a) (hk : l[k]? = some b)
    (hjk : j ≠ k) : R a b := by
  obtain ⟨hjlt, hjval⟩ := List.getElem?_eq_some.mp hj
  obtain ⟨hklt, hkval⟩ := List.getElem?_eq_some.mp hk
  rcases Nat.lt_or_ge j k with hlt | hge
  · have := List.pairwise_iff_getElem.mp h j k hjlt hklt hlt
    rw [hjval, hkval] at this
    exact this
  · have hkj : k < j := by omega
    have := List.pairwise_iff_getElem.mp h k j hklt hjlt hkj
    rw [hjval, hkval] at this
    exact hsymm _ _ this

theorem cardOk_set_ne (cards : List Card) (i j : Nat) (card : Card)
    (hij : i ≠ j) (h : cardOk cards j) :
    cardOk (cards.set i card) j := by
  obtain ⟨cd, hcd, hf, hm⟩ := h
  exact ⟨cd, by rw [List.getElem?_set, if_neg hij]; exact hcd, hf, hm⟩

theorem cardOk_set_ne2 (cards : List Card) (i1 i2 j : Nat) (c1 c2 : Card)
    (h1 : i1 ≠ j) (h2 : i2 ≠ j) (h : cardOk cards j) :
    cardOk ((cards.set i1 c1).set i2 c2) j :=
  cardOk_set_ne _ i2 j c2 h2 (cardOk_set_ne _ i1 j c1 h1 h)

theorem okPair_inj {r r' : TurnResult} {c1 c2 : Controller}
    (h : (Except.ok (r, c1) : Except String (TurnResult × Controller)) = .ok (r', c2)) :
    c2 = c1 := by
  cases h
  rfl

/-- Complete case analysis of a non-throwing `flipCard` call: either the
controller is returned unchanged (all rejection paths), or an unflipped,
unmatched card at index `i` is flipped -- appended to the revealed set when
it is the first card, or (second card) the revealed set `[r0]` is cleared
and the comparison pair `(r0, i)` is scheduled. -/
theorem flipCard_cases (c : Controller) (cardId : Nat) (r : TurnResult) (c' : Controller)
    (h : flipCard c cardId = .ok (r, c')) :
    c' = c ∨
    ∃ s i card, c.state = some s ∧
      s.cards[i]? = some card ∧ card.isMatched = false ∧ card.isFlipped = false ∧
      (c' = { c with state := some { s with
          cards := s.cards.set i { card with isFlipped := true },
          revealedCards := s.revealedCards ++ [i],
          players := (modifyAt (fun p => { p with totalFlips := p.totalFlips + 1 })
            s.currentPlayerIndex s.players) } } ∨
       ∃ r0, s.revealedCards = [r0] ∧
        c' = { c with
          state := some { s with
            cards := s.cards.set i { card with isFlipped := true },
            revealedCards := [],
            players := (modifyAt (fun p => { p with totalFlips := p.totalFlips + 1 })
              s.currentPlayerIndex s.players) },
          pending := c.pending ++ [(r0, i)] }) := by
  unfold flipCard at h
  cases hcs : c.state with
  | none => rw [hcs] at h; cases h
  | some s =>
    rw [hcs] at h
    dsimp only at h
    by_cases hp : s.isPaused = true
    · rw [if_pos hp] at h
      exact Or.inl (okPair_inj h)
    · rw [if_neg hp] at h
      by_cases hover : s.isGameOver = true
      · rw [if_pos hover] at h
        exact Or.inl (okPair_inj h)
      · rw [if_neg hover] at h
        rcases hfind : s.cards.findIdx? (fun cd => cd.id == cardId) with _ | i
        · rw [hfind] at h
          exact Or.inl (okPair_inj h)
        · rw [hfind] at h
          dsimp only at h
          rcases hget : s.cards[i]? with _ | card
          · rw [hget] at h
            exact Or.inl (okPair_inj h)
          · rw [hget] at h
            dsimp only at h
            by_cases hmf : card.isMatched = true ∨ card.isFlipped = true
            · rw [if_pos hmf] at h
              exact Or.inl (okPair_inj h)
            · rw [if_neg hmf] at h
              have hm : card.isMatched = false := by
                rcases Bool.eq_false_or_eq_true card.isMatched with h1 | h1
                · exact absurd (Or.inl h1) hmf
                · exact h1
              have hfl : card.isFlipped = false := by
                rcases Bool.eq_false_or_eq_true card.isFlipped with h1 | h1
                · exact absurd (Or.inr h1) hmf
                · exact h1
              by_cases hrev : 2 ≤ s.revealedCards.length
              · rw [if_pos hrev] at h
                exact Or.inl (okPair_inj h)
              · rw [if_neg hrev] at h
                by_cases hlen : (s.revealedCards ++ [i]).length = 1
                · rw [if_pos hlen] at h
                  exact Or.inr ⟨s, i, card, rfl, hget, hm, hfl, Or.inl (okPair_inj h)⟩
                · rw [if_neg hlen] at h
                  have hone : s.revealedCards.length = 1 := by
                    simp only [List.length_append, List.length_cons,
                      List.length_nil] at hlen
                    omega
                  obtain ⟨r0, hr0⟩ := List.length_eq_one.mp hone
                  rw [hr0] at h
                  exact Or.inr ⟨s, i, card, rfl, hget, hm, hfl,
                    Or.inr ⟨r0, hr0, okPair_inj h⟩⟩

theorem matchedMono_refl (c : Controller) (hInv : Inv c) : MatchedMono c c := by
  intro s s' hs hs'
  rw [hs] at hs'
  obtain rfl := Option.some.inj hs'
  refine ⟨rfl, fun i card card' h1 h2 hm => ?_⟩
  rw [h1] at h2
  obtain rfl := Option.some.inj h2
  exact ⟨hm, (hInv s hs).2.2.2.2 i card h1 hm⟩

/-- A step that keeps the cards, the revealed set and the pending callbacks
preserves the invariant and cannot un-match a card. -/
theorem preserve_of_flags (c c' : Controller) (hInv : Inv c) (s : GameState)
    (hcs : c.state = some s) (s2 : GameState)
    (hc' : c'.state = some s2) (hpend : c'.pending = c.pending)
    (hcards : s2.cards = s.cards) (hrev : s2.revealedCards = s.revealedCards) :
    Inv c' ∧ MatchedMono c c' := by
  constructor
  · intro s0 hs0
    rw [hc'] at hs0
    obtain rfl := Option.some.inj hs0
    rw [hpend, hcards, hrev]
    exact hInv s hcs
  · intro s1 s1' h1 h1'
    rw [hcs] at h1
    obtain rfl := Option.some.inj h1
    rw [hc'] at h1'
    obtain rfl := Option.some.inj h1'
    refine ⟨by rw [hcards], ?_⟩
    intro i card card' hg1 hg2 hm
    rw [hcards, hg1] at hg2
    obtain rfl := Option.some.inj hg2
    exact ⟨hm, (hInv s hcs).2.2.2.2 i card hg1 hm⟩

/-- Firing the comparison callback for the scheduled pair `(fi, si)` --
either branch -- preserves the invariant and cannot un-match a card, as
long as the two rewritten cards keep "matched implies face-up". -/
theorem preserve_pair_update (c : Controller) (hInv : Inv c) (s : GameState)
    (hcs : c.state = some s) (k fi si : Nat) (hpk : c.pending[k]? = some (fi, si))
    (first second F S : Card)
    (hfst : s.cards[fi]? = some first) (hsnd : s.cards[si]? = some second)
    (hFf : F.isMatched = true → F.isFlipped = true)
    (hSf : S.isMatched = true → S.isFlipped = true)
    (c' : Controller) (s' : GameState)
    (hc's : c'.state = some s')
    (hc'p : c'.pending = c.pending.eraseIdx k)
    (h'cards : s'.cards = (s.cards.set fi F).set si S)
    (h'rev : s'.revealedCards = s.revealedCards) :
    Inv c' ∧ MatchedMono c c' := by
  obtain ⟨ha, hb, hcrp, hd, hf⟩ := hInv s hcs
  have hmem : (fi, si) ∈ c.pending := by
    obtain ⟨hlt, hval⟩ := List.getElem?_eq_some.mp hpk
    exact hval ▸ List.getElem_mem hlt
  obtain ⟨⟨first1, hfst1, hff, hfm⟩, ⟨second1, hsnd1, hsf, hsm⟩, hfsne⟩ := ha _ hmem
  rw [hfst] at hfst1
  obtain rfl := Option.some.inj hfst1
  rw [hsnd] at hsnd1
  obtain rfl := Option.some.inj hsnd1
  have hfb : fi < s.cards.length := (List.getElem?_eq_some.mp hfst).1
  have hsb : si < s.cards.length := (List.getElem?_eq_some.mp hsnd).1
  have hget_si : s'.cards[si]? = some S := by
    rw [h'cards, List.getElem?_set, if_pos rfl, if_pos (by simpa using hsb)]
  have hget_fi : s'.cards[fi]? = some F := by
    rw [h'cards, List.getElem?_set, if_neg (fun hx => hfsne hx.symm),
      List.getElem?_set, if_pos rfl, if_pos hfb]
  have hget_other : ∀ j, j ≠ fi → j ≠ si → s'.cards[j]? = s.cards[j]? := by
    intro j hjf hjs
    rw [h'cards, List.getElem?_set, if_neg (fun hx => hjs hx.symm),
      List.getElem?_set, if_neg (fun hx => hjf hx.symm)]
  have hdisj : ∀ pr ∈ c'.pending, pairDisjoint (fi, si) pr := by
    intro pr hpr
    rw [hc'p] at hpr
    obtain ⟨j, hjk, hj⟩ := mem_eraseIdx _ k pr hpr
    exact pairwise_getElem_rel pairDisjoint pairDisjoint_symm _ hd k j _ _ hpk hj
      (fun hx => hjk hx.symm)
  constructor
  · intro s0 hs0
    rw [hc's] at hs0
    obtain rfl := Option.some.inj hs0
    refine ⟨?_, ?_, ?_, ?_, ?_⟩
    · intro pr hpr
      have hdj := hdisj pr hpr
      have hpr' : pr ∈ c.pending := by
        rw [hc'p] at hpr
        exact (List.eraseIdx_sublist c.pending k).mem hpr
      obtain ⟨h1, h2, h3⟩ := ha pr hpr'
      refine ⟨?_, ?_, h3⟩
      · obtain ⟨cd, hcd, hx, hy⟩ := h1
        exact ⟨cd, by rw [hget_other pr.1 hdj.1.symm hdj.2.2.1.symm]; exact hcd, hx, hy⟩
      · obtain ⟨cd, hcd, hx, hy⟩ := h2
        exact ⟨cd, by rw [hget_other pr.2 hdj.2.1.symm hdj.2.2.2.symm]; exact hcd, hx, hy⟩
    · intro i hi
      rw [h'rev] at hi
      have hnfs := hcrp i hi (fi, si) hmem
      obtain ⟨cd, hcd, hx, hy⟩ := hb i hi
      exact ⟨cd, by rw [hget_other i hnfs.1 hnfs.2]; exact hcd, hx, hy⟩
    · intro i hi pr hpr
      rw [h'rev] at hi
      have hpr' : pr ∈ c.pending := by
        rw [hc'p] at hpr
        exact (List.eraseIdx_sublist c.pending k).mem hpr
      exact hcrp i hi pr hpr'
    · rw [hc'p]
      exact hd.sublist (List.eraseIdx_sublist c.pending k)
    · intro j card hj hm
      by_cases hjs : j = si
      · subst hjs
        rw [hget_si] at hj
        obtain rfl := Option.some.inj hj
        exact hSf hm
      · by_cases hjf : j = fi
        · subst hjf
          rw [hget_fi] at hj
          obtain rfl := Option.some.inj hj
          exact hFf hm
        · rw [hget_other j hjf hjs] at hj
          exact hf j card hj hm
  · intro s1 s1' h1 h1'
    rw [hcs] at h1
    obtain rfl := Option.some.inj h1
    rw [hc's] at h1'
    obtain rfl := Option.some.inj h1'
    refine ⟨by rw [h'cards]; simp, ?_⟩
    intro i card card' hg1 hg2 hm
    by_cases his : i = si
    · subst his
      rw [hsnd] at hg1
      obtain rfl := Option.some.inj hg1
      rw [hsm] at hm
      cases hm
    · by_cases hif : i = fi
      · subst hif
        rw [hfst] at hg1
        obtain rfl := Option.some.inj hg1
        rw [hfm] at hm
        cases hm
      · rw [hget_other i hif his, hg1] at hg2
        obtain rfl := Option.some.inj hg2
        exact ⟨hm, hf i card hg1 hm⟩

theorem preserve_start (c c' : Controller) (hInv : Inv c)
    (h : startGame c = .ok c') : Inv c' ∧ MatchedMono c c' := by
  unfold startGame at h
  cases hcs : c.state with
  | none => rw [hcs] at h; cases h
  | some s =>
    rw [hcs] at h
    dsimp only at h
    by_cases hover : s.isGameOver = true
    · rw [if_pos hover] at h; cases h
    · rw [if_neg hover] at h
      obtain rfl := Except.ok.inj h
      exact preserve_of_flags c _ hInv s hcs _ rfl rfl rfl rfl

theorem preserve_pause (c c' : Controller) (hInv : Inv c)
    (h : pauseGame c = .ok c') : Inv c' ∧ MatchedMono c c' := by
  unfold pauseGame at h
  cases hcs : c.state with
  | none =>
    rw [hcs] at h
    obtain rfl := Except.ok.inj h
    exact ⟨hInv, matchedMono_refl c hInv⟩
  | some s =>
    rw [hcs] at h
    dsimp only at h
    by_cases hover : s.isGameOver = true
    · rw [if_pos hover] at h
      obtain rfl := Except.ok.inj h
      exact ⟨hInv, matchedMono_refl c hInv⟩
    · rw [if_neg hover] at h
      obtain rfl := Except.ok.inj h
      exact preserve_of_flags c _ hInv s hcs _ rfl rfl rfl rfl

theorem preserve_resume (c c' : Controller) (hInv : Inv c)
    (h : resumeGame c = .ok c') : Inv c' ∧ MatchedMono c c' := by
  unfold resumeGame at h
  cases hcs : c.state with
  | none =>
    rw [hcs] at h
    obtain rfl := Except.ok.inj h
    exact ⟨hInv, matchedMono_refl c hInv⟩
  | some s =>
    rw [hcs] at h
    dsimp only at h
    by_cases hover : s.isGameOver = true
    · rw [if_pos hover] at h
      obtain rfl := Except.ok.inj h
      exact ⟨hInv, matchedMono_refl c hInv⟩
    · rw [if_neg hover] at h
      obtain rfl := Except.ok.inj h
      exact preserve_of_flags c _ hInv s hcs _ rfl rfl rfl rfl

theorem preserve_expiry (c : Controller) (hInv : Inv c) (s s1 : GameState)
    (hcs : c.state = some s) (hcards : s1.cards = s.cards)
    (hrev : s1.revealedCards = s.revealedCards) :
    Inv (onTimerExpired c s1) ∧ MatchedMono c (onTimerExpired c s1) := by
  obtain ⟨ha, hb, hcrp, hd, hf⟩ := hInv s hcs
  have hU : ∀ (j : Nat), j ∉ s.revealedCards →
      (unflipRevealed s1.revealedCards s1.cards)[j]? = s.cards[j]? := by
    intro j hj
    rw [hrev, hcards]
    exact getElem?_unflipRevealed_notMem s.revealedCards s.cards j hj
  constructor
  · intro s0 hs0
    have hs0' : some (switchPlayer { s1 with
        cards := unflipRevealed s1.revealedCards s1.cards,
        revealedCards := [] }) = some s0 := hs0
    obtain rfl := Option.some.inj hs0'
    show StateInv (unflipRevealed s1.revealedCards s1.cards) [] c.pending
    refine ⟨?_, ?_, ?_, hd, ?_⟩
    · intro pr hpr
      obtain ⟨⟨cd1, hcd1, hf1, hm1⟩, ⟨cd2, hcd2, hf2, hm2⟩, hne⟩ := ha pr hpr
      have h1 : pr.1 ∉ s.revealedCards := fun hmem => (hcrp _ hmem pr hpr).1 rfl
      have h2 : pr.2 ∉ s.revealedCards := fun hmem => (hcrp _ hmem pr hpr).2 rfl
      exact ⟨⟨cd1, by rw [hU pr.1 h1]; exact hcd1, hf1, hm1⟩,
        ⟨cd2, by rw [hU pr.2 h2]; exact hcd2, hf2, hm2⟩, hne⟩
    · intro i hi
      simp at hi
    · intro i hi
      simp at hi
    · intro j card hj hm
      rcases getElem?_unflipRevealed s1.revealedCards s1.cards j with hsame | ⟨cardX, hX, hXm, hval⟩
      · rw [hsame, hcards] at hj
        exact hf j card hj hm
      · rw [hval] at hj
        obtain rfl := Option.some.inj hj
        simp only [] at hm
        rw [hXm] at hm
        cases hm
  · intro sa sa' h1 h1'
    rw [hcs] at h1
    obtain rfl := Option.some.inj h1
    have h1'' : some (switchPlayer { s1 with
        cards := unflipRevealed s1.revealedCards s1.cards,
        revealedCards := [] }) = some sa' := h1'
    obtain rfl := Option.some.inj h1''
    constructor
    · show (unflipRevealed s1.revealedCards s1.cards).length = s.cards.length
      rw [unflipRevealed_length, hcards]
    · intro i card card' hg1 hg2 hm
      rcases getElem?_unflipRevealed s1.revealedCards s1.cards i with hsame | ⟨cardX, hX, hXm, hval⟩
      · have hg2' : (unflipRevealed s1.revealedCards s1.cards)[i]? = some card' := hg2
        rw [hsame, hcards, hg1] at hg2'
        obtain rfl := Option.some.inj hg2'
        exact ⟨hm, hf i card hg1 hm⟩
      · rw [hcards, hg1] at hX
        obtain rfl := Option.some.inj hX
        rw [hXm] at hm
        cases hm

theorem preserve_tick (c : Controller) (hInv : Inv c) :
    Inv (tick c) ∧ MatchedMono c (tick c) := by
  unfold tick
  by_cases ht : c.timerOn = false
  · rw [if_pos ht]
    exact ⟨hInv, matchedMono_refl c hInv⟩
  · rw [if_neg ht]
    cases hcs : c.state with
    | none => exact ⟨hInv, matchedMono_refl c hInv⟩
    | some s =>
      dsimp only
      by_cases hp : s.isPaused = true
      · rw [if_pos hp]
        exact ⟨hInv, matchedMono_refl c hInv⟩
      · rw [if_neg hp]
        by_cases hexp : ({ s with timeRemaining := s.timeRemaining - 1 } : GameState).timeRemaining ≤ 0
        · rw [if_pos hexp]
          exact preserve_expiry c hInv s _ hcs rfl rfl
        · rw [if_neg hexp]
          exact preserve_of_flags c _ hInv s hcs _ rfl rfl rfl rfl

theorem preserve_flip (c c' : Controller) (cardId : Nat) (r : TurnResult) (hInv : Inv c)
    (h : flipCard c cardId = .ok (r, c')) : Inv c' ∧ MatchedMono c c' := by
  rcases flipCard_cases c cardId r c' h with rfl | ⟨s, i, card, hcs, hget, hm, hfl, hbr⟩
  · exact ⟨hInv, matchedMono_refl _ hInv⟩
  obtain ⟨ha, hb, hcrp, hd, hf⟩ := hInv s hcs
  have hib : i < s.cards.length := (List.getElem?_eq_some.mp hget).1
  have hnotpend : ∀ pr ∈ c.pending, i ≠ pr.1 ∧ i ≠ pr.2 := by
    intro pr hpr
    obtain ⟨⟨cd1, hcd1, hf1, _⟩, ⟨cd2, hcd2, hf2, _⟩, _⟩ := ha pr hpr
    constructor
    · intro hx
      rw [← hx, hget] at hcd1
      obtain rfl := Option.some.inj hcd1
      rw [hfl] at hf1
      cases hf1
    · intro hx
      rw [← hx, hget] at hcd2
      obtain rfl := Option.some.inj hcd2
      rw [hfl] at hf2
      cases hf2
  have hnotrev : i ∉ s.revealedCards := by
    intro hmem
    obtain ⟨cd, hcd, hfcd, _⟩ := hb i hmem
    rw [hget] at hcd
    obtain rfl := Option.some.inj hcd
    rw [hfl] at hfcd
    cases hfcd
  have hset_i : (s.cards.set i { card with isFlipped := true })[i]? =
      some { card with isFlipped := true } := by
    rw [List.getElem?_set, if_pos rfl, if_pos hib]
  have hset_ne : ∀ j, j ≠ i → (s.cards.set i { card with isFlipped := true })[j]? =
      s.cards[j]? := by
    intro j hj
    rw [List.getElem?_set, if_neg (fun hx => hj hx.symm)]
  have hpend_ok : ∀ pr ∈ c.pending,
      pairOk (s.cards.set i { card with isFlipped := true }) pr := by
    intro pr hpr
    obtain ⟨⟨cd1, hcd1, hf1, hm1⟩, ⟨cd2, hcd2, hf2, hm2⟩, hne⟩ := ha pr hpr
    obtain ⟨hi1, hi2⟩ := hnotpend pr hpr
    exact ⟨⟨cd1, by rw [hset_ne pr.1 (fun hx => hi1 hx.symm)]; exact hcd1, hf1, hm1⟩,
      ⟨cd2, by rw [hset_ne pr.2 (fun hx => hi2 hx.symm)]; exact hcd2, hf2, hm2⟩, hne⟩
  have hf' : ∀ (j : Nat) (cd : Card),
      (s.cards.set i { card with isFlipped := true })[j]? = some cd →
      cd.isMatched = true → cd.isFlipped = true := by
    intro j cd hj hmt
    by_cases hji : j = i
    · subst hji
      rw [hset_i] at hj
      obtain rfl := Option.some.inj hj
      rfl
    · rw [hset_ne j hji] at hj
      exact hf j cd hj hmt
  have hmono : MatchedMono c c' → MatchedMono c c' := id
  have monoCommon : ∀ (s0 : GameState), c'.state = some s0 →
      s0.cards = s.cards.set i { card with isFlipped := true } →
      MatchedMono c c' := by
    intro s0 hc's h0cards
    intro sa sa' h1 h1'
    rw [hcs] at h1
    obtain rfl := Option.some.inj h1
    rw [hc's] at h1'
    obtain rfl := Option.some.inj h1'
    constructor
    · rw [h0cards]
      simp
    · intro j cd cd' hg1 hg2 hmt
      by_cases hji : j = i
      · subst hji
        rw [hget] at hg1
        obtain rfl := Option.some.inj hg1
        rw [hm] at hmt
        cases hmt
      · rw [h0cards, hset_ne j hji, hg1] at hg2
        obtain rfl := Option.some.inj hg2
        exact ⟨hmt, hf j cd hg1 hmt⟩
  rcases hbr with rfl | ⟨r0, hr0, rfl⟩
  · constructor
    · intro s0 hs0
      have hs0' : some ({ s with
          cards := s.cards.set i { card with isFlipped := true },
          revealedCards := s.revealedCards ++ [i],
          players := (modifyAt (fun p => { p with totalFlips := p.totalFlips + 1 })
            s.currentPlayerIndex s.players) } : GameState) = some s0 := hs0
      obtain rfl := Option.some.inj hs0'
      refine ⟨hpend_ok, ?_, ?_, hd, hf'⟩
      · intro j hj
        rcases List.mem_append.mp hj with hj | hj
        · obtain ⟨cd, hcd, hfc, hmc⟩ := hb j hj
          have hji : j ≠ i := fun hx => hnotrev (hx ▸ hj)
          exact ⟨cd, by rw [hset_ne j hji]; exact hcd, hfc, hmc⟩
        · rw [List.mem_singleton.mp hj]
          exact ⟨{ card with isFlipped := true }, hset_i, rfl, hm⟩
      · intro j hj pr hpr
        rcases List.mem_append.mp hj with hj | hj
        · exact hcrp j hj pr hpr
        · rw [List.mem_singleton.mp hj]
          exact hnotpend pr hpr
    · exact monoCommon _ rfl rfl
  · constructor
    · intro s0 hs0
      have hs0' : some ({ s with
          cards := s.cards.set i { card with isFlipped := true },
          revealedCards := [],
          players := (modifyAt (fun p => { p with totalFlips := p.totalFlips + 1 })
            s.currentPlayerIndex s.players) } : GameState) = some s0 := hs0
      obtain rfl := Option.some.inj hs0'
      have hr0mem : r0 ∈ s.revealedCards := by rw [hr0]; exact List.mem_singleton_self r0
      have hir0 : i ≠ r0 := fun hx => hnotrev (hx ▸ hr0mem)
      refine ⟨?_, ?_, ?_, ?_, hf'⟩
      · intro pr hpr
        rcases List.mem_append.mp hpr with hpr | hpr
        · exact hpend_ok pr hpr
        · rw [List.mem_singleton.mp hpr]
          obtain ⟨cd, hcd, hfc, hmc⟩ := hb r0 hr0mem
          exact ⟨⟨cd, by rw [hset_ne r0 (fun hx => hir0 hx.symm)]; exact hcd, hfc, hmc⟩,
            ⟨{ card with isFlipped := true }, hset_i, rfl, hm⟩, fun hx => hir0 hx.symm⟩
      · intro j hj
        simp at hj
      · intro j hj
        simp at hj
      · rw [List.pairwise_append]
        refine ⟨hd, List.pairwise_singleton _ _, ?_⟩
        intro pr hpr q hq
        rw [List.mem_singleton.mp hq]
        obtain ⟨hi1, hi2⟩ := hnotpend pr hpr
        obtain ⟨hr1, hr2⟩ := hcrp r0 hr0mem pr hpr
        exact ⟨hr1.symm, fun hx => hi1 hx.symm, hr2.symm, fun hx => hi2 hx.symm⟩
    · exact monoCommon _ rfl rfl

theorem preserve_fire (c : Controller) (k : Nat) (hInv : Inv c) :
    Inv (compareFire c k) ∧ MatchedMono c (compareFire c k) := by
  unfold compareFire
  rcases hpk : c.pending[k]? with _ | ⟨fi, si⟩
  · exact ⟨hInv, matchedMono_refl c hInv⟩
  · unfold compareFirePair
    dsimp only
    cases hcs : c.state with
    | none =>
      constructor
      · intro s0 hs0
        have hx : (none : Option GameState) = some s0 := hs0
        cases hx
      · intro sa sa' h1 h1'
        rw [hcs] at h1
        cases h1
    | some s =>
      dsimp only
      have hmem : (fi, si) ∈ c.pending := by
        obtain ⟨hlt, hval⟩ := List.getElem?_eq_some.mp hpk
        exact hval ▸ List.getElem_mem hlt
      obtain ⟨⟨first, hfst, hff, hfm⟩, ⟨second, hsnd, hsf, hsm⟩, hfsne⟩ :=
        (hInv s hcs).1 _ hmem
      have hfst' : s.cards[fi]? = some first := hfst
      have hsnd' : s.cards[si]? = some second := hsnd
      rw [hfst', hsnd']
      dsimp only
      by_cases heq : first.pokemonId = second.pokemonId
      · rw [if_pos heq]
        split
        · obtain ⟨s'', hstate, hcards'', _, _, _, _, _, _, hrev'', hpend''⟩ :=
            endGame_state_fields _ _
          exact preserve_pair_update c hInv s hcs k fi si hpk first second
            { first with isMatched := true } { second with isMatched := true }
            hfst' hsnd' (fun _ => hff) (fun _ => hsf) _ s'' hstate hpend'' hcards'' hrev''
        · exact preserve_pair_update c hInv s hcs k fi si hpk first second
            { first with isMatched := true } { second with isMatched := true }
            hfst' hsnd' (fun _ => hff) (fun _ => hsf) _ _ rfl rfl rfl rfl
      · rw [if_neg heq]
        refine preserve_pair_update c hInv s hcs k fi si hpk first second
          { first with isFlipped := false } { second with isFlipped := false }
          hfst' hsnd' ?_ ?_ _ _ rfl rfl rfl rfl
        · intro hmt
          have hx : first.isMatched = true := hmt
          rw [hfm] at hx
          cases hx
        · intro hmt
          have hx : second.isMatched = true := hmt
          rw [hsm] at hx
          cases hx

theorem step_preserves (c c' : Controller) (hInv : Inv c) (h : Step c c') :
    Inv c' ∧ MatchedMono c c' := by
  cases h with
  | start a hs => exact preserve_start _ _ hInv hs
  | pause a hs => exact preserve_pause _ _ hInv hs
  | resume a hs => exact preserve_resume _ _ hInv hs
  | flip a cardId r hs => exact preserve_flip _ _ cardId r hInv hs
  | timerTick => exact preserve_tick c hInv
  | fire k => exact preserve_fire c k hInv

theorem step_none (c c' : Controller) (h : Step c c') (hn : c.state = none) :
    c'.state = none := by
  cases h with
  | start a hs =>
    unfold startGame at hs
    rw [hn] at hs
    cases hs
  | pause a hs =>
    unfold pauseGame at hs
    rw [hn] at hs
    obtain rfl := Except.ok.inj hs
    exact hn
  | resume a hs =>
    unfold resumeGame at hs
    rw [hn] at hs
    obtain rfl := Except.ok.inj hs
    exact hn
  | flip a cardId r hs =>
    unfold flipCard at hs
    rw [hn] at hs
    cases hs
  | timerTick =>
    unfold tick
    split
    · exact hn
    · rw [hn]
      exact hn
  | fire k =>
    unfold compareFire
    rcases hpk : c.pending[k]? with _ | ⟨fi, si⟩
    · exact hn
    · unfold compareFirePair
      dsimp only
      rw [hn]

theorem init_inv (config : GameConfig) (fetched : Except String (List Pokemon))
    (chs1 chs2 : List Nat) (c₀ : Controller)
    (h : initGame freshController config fetched chs1 chs2 = .ok c₀) : Inv c₀ := by
  unfold initGame at h
  by_cases hcond : config.players.length < 1 ∨ config.players.length > 4
  · rw [if_pos hcond] at h
    cases h
  · rw [if_neg hcond] at h
    cases hf : fetched with
    | error e =>
      rw [hf] at h
      cases h
    | ok l =>
      rw [hf] at h
      dsimp only [generateCards] at h
      obtain rfl := Except.ok.inj h
      intro s0 hs0
      obtain rfl := Option.some.inj hs0
      refine ⟨?_, ?_, ?_, List.Pairwise.nil, ?_⟩
      · intro pr hpr
        simp [freshController] at hpr
      · intro i hi
        simp at hi
      · intro i hi
        simp at hi
      · intro i card hi hm
        have hmemcard : card ∈ shuffleArray chs2 (buildPairs 0
            (getRandomPokemon l chs1 (DIFFICULTY_CONFIG config.difficulty).uniquePokemon)) := by
          obtain ⟨hlt, hval⟩ := List.getElem?_eq_some.mp hi
          exact hval ▸ List.getElem_mem hlt
        have hmemb : card ∈ buildPairs 0
            (getRandomPokemon l chs1 (DIFFICULTY_CONFIG config.difficulty).uniquePokemon) :=
          (shuffleArray_perm chs2 _).mem_iff.mp hmemcard
        have := (buildPairs_flags 0 _ card hmemb).2
        rw [this] at hm
        cases hm

theorem reachable_inv_mono (c c' : Controller)
    (hr : Relation.ReflTransGen Step c c') (hInv : Inv c) :
    Inv c' ∧ MatchedMono c c' := by
  induction hr with
  | refl => exact ⟨hInv, matchedMono_refl c hInv⟩
  | tail hsteps hstep ih =>
    rename_i b c'
    refine ⟨(step_preserves b c' ih.1 hstep).1, ?_⟩
    intro s s' hs hs'
    cases hb : b.state with
    | none =>
      have hnone : c'.state = none := step_none b c' hstep hb
      rw [hnone] at hs'
      cases hs'
    | some sb =>
      obtain ⟨hlen1, hmono1⟩ := ih.2 s sb hs hb
      obtain ⟨hlen2, hmono2⟩ := (step_preserves b c' ih.1 hstep).2 sb s' hb hs'
      refine ⟨hlen2.trans hlen1, ?_⟩
      intro i card card' h1 h2 hm
      have hi : i < s.cards.length := (List.getElem?_eq_some.mp h1).1
      have hib : i < sb.cards.length := by rw [hlen1]; exact hi
      obtain ⟨cardm, hmid⟩ : ∃ cm, sb.cards[i]? = some cm :=
        ⟨_, List.getElem?_eq_getElem hib⟩
      obtain ⟨hm1, _⟩ := hmono1 i card cardm h1 hmid hm
      exact hmono2 i cardm card' hmid h2 hm1

/-- C7: from any reachable controller state, along any further sequence of
steps (lifecycle calls, flips, timer ticks, comparison-callback firings), a
card that is matched stays matched at its position and remains face-up --
no operation, mismatch handling or timer expiry ever re-hides a matched
card. -/
theorem claim_C7_matched_permanent (c c' : Controller)
    (hr : Reachable c) (hsteps : Relation.ReflTransGen Step c c') :
    MatchedMono c c' := by
  obtain ⟨c₀, config, fetched, chs1, chs2, hinit, hreach⟩ := hr
  have hInv : Inv c := (reachable_inv_mono c₀ c hreach
    (init_inv config fetched chs1 chs2 c₀ hinit)).1
  exact (reachable_inv_mono c c' hsteps hInv).2

/-- A freshly initialized one-player game used to witness reachability. -/
def reachableW : Controller :=
  ⟨some ⟨⟨.easy, [⟨"p1", "A", 0, true, 0, 0⟩], ⟨1⟩⟩,
    [⟨1, 1, "u", false, false⟩, ⟨0, 1, "u", false, false⟩],
    [⟨"p1", "A", 0, true, 0, 0⟩], 0, [], 30, true, false, none⟩, false, []⟩

/-- Witness for C7: one concrete reachable controller and one concrete step
(a timer tick). -/
theorem claim_C7_matched_permanent_witness :
    MatchedMono reachableW (tick reachableW) :=
  claim_C7_matched_permanent reachableW (tick reachableW)
    ⟨reachableW, ⟨.easy, [⟨"p1", "A", 0, true, 0, 0⟩], ⟨1⟩⟩,
      .ok [⟨1, "b", "u"⟩], [], [], rfl, Relation.ReflTransGen.refl⟩
    (Relation.ReflTransGen.single (Step.timerTick reachableW))

end Pokememo
